import Mathlib

/-!
# Frame-lifecycle core of `vkx::ExampleBase` (src/base/vulkanExampleBase.h)

A shallow embedding of the command-buffer builders, the per-frame submission
protocol and the pending-update transfer path of the Vulkan example base class.

Modelling conventions

* Vulkan handles (`vk::Buffer`, `vk::Semaphore`, `vk::Fence`, `vk::CommandBuffer`,
  `vk::Framebuffer`, ...) are natural numbers; the default-constructed handle
  (`vk::Semaphore()`, `VK_NULL_HANDLE`) is `0`.
* The object is an explicit state record `ExampleBase`; every member function is a
  function from the state on entry to an `Outcome` (the state on normal return, or
  an error together with the state at the point of failure).
* Every call the class makes to one of its collaborators (device, queue, command
  buffers, swap chain, context, scene hooks) is appended to a call trace kept in the
  device record, in program order.
* `assert` is the `<cassert>` macro: it aborts when the condition is false unless the
  translation unit is compiled with `NDEBUG`; the build mode is the parameter `ndebug`.
* `vk::DeviceSize` values are only ever reduced modulo 4 here, so they are plain `Nat`.
-/

namespace vkx

/-- Vulkan object handle; `0` is the null handle. -/
abbrev Handle := Nat

/-- The default-constructed (null) handle, e.g. `vk::Semaphore()`. -/
def nullHandle : Handle := 0

/-! ## Vulkan enumerants used by the class (values from the Vulkan headers) -/

/-- Bit mask `vk::PipelineStageFlags`. -/
abbrev PipelineStageFlags := Nat

/-- Enumerant `vk::PipelineStageFlagBits::eBottomOfPipe`. -/
def eBottomOfPipe : PipelineStageFlags := 0x2000
/-- Enumerant `vk::PipelineStageFlagBits::eTransfer`. -/
def eTransfer : PipelineStageFlags := 0x1000
/-- Enumerant `vk::PipelineStageFlagBits::eAllCommands`. -/
def eAllCommands : PipelineStageFlags := 0x10000

/-- Bit mask `vk::CommandBufferUsageFlags`. -/
abbrev CommandBufferUsageFlags := Nat

/-- Enumerant `vk::CommandBufferUsageFlagBits::eOneTimeSubmit`. -/
def eOneTimeSubmit : CommandBufferUsageFlags := 0x1
/-- Enumerant `vk::CommandBufferUsageFlagBits::eRenderPassContinue`. -/
def eRenderPassContinue : CommandBufferUsageFlags := 0x2
/-- Enumerant `vk::CommandBufferUsageFlagBits::eSimultaneousUse`. -/
def eSimultaneousUse : CommandBufferUsageFlags := 0x4

/-- Enumeration `vk::CommandBufferLevel`. -/
inductive CommandBufferLevel where
  | ePrimary
  | eSecondary
  deriving DecidableEq, Repr

/-- Enumeration `vk::SubpassContents`. -/
inductive SubpassContents where
  | eInline
  | eSecondaryCommandBuffers
  deriving DecidableEq, Repr

/-- Enumerant `vk::CommandBufferResetFlagBits::eReleaseResources`. -/
def eReleaseResources : Nat := 0x1

/-! ## Errors -/

/-- Ways in which a member function can fail to return normally. -/
inductive Error where
  /-- an `assert` whose condition is false in a build without `NDEBUG`;
      the payload is the text of the asserted expression -/
  | assertion (expr : String)
  /-- a thrown `std::runtime_error` with its message -/
  | runtimeError (msg : String)
  /-- `operator[]` read past the end of a `std::vector` -/
  | outOfRange
  deriving DecidableEq, Repr

/-! ## `UpdateOperation` (lines 35-46) -/

/-- The record `struct UpdateOperation`: target buffer, byte size, byte offset and the
address of the source words. -/
structure UpdateOperation where
  buffer : Handle
  size : Nat
  offset : Nat
  data : Nat
  deriving DecidableEq, Repr

/-- The constructor `UpdateOperation(const vk::Buffer& buffer, const T& data, vk::DeviceSize offset)`.
`sizeofT` is `sizeof(T)` and `data` the address `&data`.  The member initialisers run
first; the body then evaluates the two `assert`s in order (both compiled out under
`NDEBUG`). -/
def UpdateOperation.construct (ndebug : Bool) (buffer : Handle) (sizeofT : Nat)
    (data : Nat) (offset : Nat) : Except Error UpdateOperation :=
  let self : UpdateOperation := { buffer := buffer, size := sizeofT, offset := offset, data := data }
  if !ndebug && !(0 == sizeofT % 4) then
    .error (.assertion "0 == (sizeof(T) % 4)")
  else if !ndebug && !(0 == offset % 4) then
    .error (.assertion "0 == (offset % 4)")
  else
    .ok self

/-- The constructor called without its last argument (`vk::DeviceSize offset = 0`). -/
def UpdateOperation.constructDefaultOffset (ndebug : Bool) (buffer : Handle)
    (sizeofT : Nat) (data : Nat) : Except Error UpdateOperation :=
  UpdateOperation.construct ndebug buffer sizeofT data 0

/-! ## Collaborator calls recorded in the trace -/

/-- The fields of `vk::SubmitInfo` the class fills in.  `pCommandBuffers` is the address of one
vector element; the class only takes the address, so an index past the end is kept as `none`
(nothing in the class reads the element). -/
structure SubmitInfo where
  waitSemaphores : List Handle
  waitDstStageMask : List PipelineStageFlags
  signalSemaphores : List Handle
  commandBuffers : List (Option Handle)
  deriving DecidableEq, Repr

/-- A deferred cleanup action: the body of one of the lambdas the class stores in
`context.dumpster` or hands to `context.recycler`. -/
inductive DisposalAction where
  /-- `device.freeCommandBuffers(pool, buffers)` -/
  | freeCommandBuffers (pool : Handle) (buffers : List Handle)
  /-- `swapChain.clearSubmitFence(fenceIndex)` -/
  | clearSubmitFence (fenceIndex : Nat)
  /-- `device.destroySemaphore(semaphore)` -/
  | destroySemaphore (semaphore : Handle)
  deriving DecidableEq, Repr

/-- One call made by the class (or by a cleanup lambda it registered) to a collaborator. -/
inductive Event where
  | getSubmitFence (fence : Handle)
  | createSemaphore (semaphore : Handle)
  | createFence (fence : Handle)
  | allocateCommandBuffers (pool : Handle) (level : CommandBufferLevel) (count : Nat)
      (buffers : List Handle)
  | queueWaitIdle
  | queueSubmit (submit : SubmitInfo) (fence : Handle)
  | cmdReset (cmdBuffer : Handle) (flags : Nat)
  /-- `cmdBuffer.begin(beginInfo)`; `inheritance` is `(renderPass, subpass, framebuffer)` of
      `pInheritanceInfo` when that pointer is set -/
  | cmdBegin (cmdBuffer : Handle) (flags : CommandBufferUsageFlags)
      (inheritance : Option (Handle × Nat × Handle))
  | cmdEnd (cmdBuffer : Handle)
  | cmdUpdateBuffer (cmdBuffer : Handle) (buffer : Handle) (offset : Nat) (size : Nat) (data : Nat)
  | cmdBeginRenderPass (cmdBuffer : Handle) (renderPass : Handle) (framebuffer : Handle)
      (contents : SubpassContents)
  | cmdExecuteCommands (cmdBuffer : Handle) (secondary : Handle)
  | cmdEndRenderPass (cmdBuffer : Handle)
  /-- the recording callback `f(cmdBuffer)`, with the value of `currentBuffer` it observes and
      the scene commands it recorded -/
  | recordFn (currentBuffer : Nat) (cmdBuffer : Handle) (recorded : List Nat)
  /-- the virtual hook `updatePrimaryCommandBuffer(cmdBuffer)` -/
  | updatePrimaryCommandBuffer (cmdBuffer : Handle) (recorded : List Nat)
  | trashCommandBuffers (buffers : List Handle)
  | emptyDumpster (fence : Handle)
  /-- entry of `context.recycle()` -/
  | recycle
  | getFenceStatus (fence : Handle) (signaled : Bool)
  | freeCommandBuffers (pool : Handle) (buffers : List Handle)
  | destroySemaphore (semaphore : Handle)
  | clearSubmitFence (fenceIndex : Nat)
  deriving DecidableEq, Repr

/-! ## State -/

/-- The logical device and its queue, as seen by the class: a supply of fresh non-null handles
and the call trace. -/
structure Device where
  nextHandle : Nat
  trace : List Event
  deriving DecidableEq, Repr

/-- The relevant members of `vks::Context`. -/
structure Context where
  device : Device
  commandPool : Handle
  dumpster : List DisposalAction
  recycler : List (Handle × List DisposalAction)
  deriving DecidableEq, Repr

/-- The relevant members of `vks::SwapChain`. -/
structure SwapChain where
  imageCount : Nat
  currentImage : Nat
  submitFences : List Handle
  deriving DecidableEq, Repr

/-- The anonymous struct `semaphores`. -/
structure Semaphores where
  acquireComplete : Handle
  renderComplete : Handle
  overlayComplete : Handle
  transferComplete : Handle
  deriving DecidableEq, Repr

/-- The fields of the member `renderPassBeginInfo` that the command-buffer builders touch. -/
structure RenderPassBeginInfo where
  renderPass : Handle
  framebuffer : Handle
  deriving DecidableEq, Repr

/-- The data members of `class ExampleBase` that the frame-lifecycle functions read or write. -/
structure ExampleBase where
  primaryCmdBuffers : List Handle
  drawCmdBuffers : List Handle
  primaryCmdBuffersDirty : Bool
  renderPassBeginInfo : RenderPassBeginInfo
  pendingUpdates : List UpdateOperation
  submitPipelineStages : PipelineStageFlags
  renderPass : Handle
  framebuffers : List Handle
  currentBuffer : Nat
  context : Context
  swapChain : SwapChain
  semaphores : Semaphores
  cmdPool : Handle
  deriving DecidableEq, Repr

/-- Result of running a member function. -/
inductive Outcome where
  /-- normal return, with the state on return -/
  | ok (s : ExampleBase)
  /-- abnormal termination, with the state at the point of failure -/
  | fail (e : Error) (s : ExampleBase)
  deriving DecidableEq, Repr

/-- The state carried by an outcome. -/
def Outcome.state : Outcome → ExampleBase
  | .ok s => s
  | .fail _ s => s

/-- Sequencing of a member function with the rest of the caller's body. -/
def Outcome.andThen (o : Outcome) (k : ExampleBase → Outcome) : Outcome :=
  match o with
  | .ok s => k s
  | .fail e s => .fail e s

/-- The call trace of a state. -/
def ExampleBase.trace (s : ExampleBase) : List Event := s.context.device.trace

/-- Append one collaborator call to the trace. -/
def ExampleBase.emit (s : ExampleBase) (e : Event) : ExampleBase :=
  { s with context := { s.context with
      device := { s.context.device with trace := s.context.device.trace ++ [e] } } }

/-- Append several collaborator calls to the trace, in order. -/
def ExampleBase.emitAll (s : ExampleBase) (es : List Event) : ExampleBase :=
  { s with context := { s.context with
      device := { s.context.device with trace := s.context.device.trace ++ es } } }

/-- The state given by the default member initialisers of the class (lines 69-71, 165, 174,
183, 204): empty vectors and lists, `primaryCmdBuffersDirty{ true }`,
`submitPipelineStages = eBottomOfPipe`, `currentBuffer = 0`, null semaphores.  The members the
header leaves to `prepare()` are parameters. -/
def ExampleBase.initial (context : Context) (swapChain : SwapChain) (cmdPool : Handle) :
    ExampleBase :=
  { primaryCmdBuffers := []
    drawCmdBuffers := []
    primaryCmdBuffersDirty := true
    renderPassBeginInfo := { renderPass := nullHandle, framebuffer := nullHandle }
    pendingUpdates := []
    submitPipelineStages := eBottomOfPipe
    renderPass := nullHandle
    framebuffers := []
    currentBuffer := 0
    context := context
    swapChain := swapChain
    semaphores := { acquireComplete := nullHandle, renderComplete := nullHandle,
                    overlayComplete := nullHandle, transferComplete := nullHandle }
    cmdPool := cmdPool }

/-! ## Device primitives

The Vulkan driver is external to the repository.  It is modelled as a deterministic supply of
fresh handles: each creation call returns the next unused non-null handle. -/

/-- The call `device.createSemaphore(vk::SemaphoreCreateInfo())`. -/
def ExampleBase.createSemaphore (s : ExampleBase) : Handle × ExampleBase :=
  let h := s.context.device.nextHandle + 1
  (h, { s with context := { s.context with
          device := { nextHandle := h, trace := s.context.device.trace ++ [.createSemaphore h] } } })

/-- The call `device.createFence(vk::FenceCreateInfo())`. -/
def ExampleBase.createFence (s : ExampleBase) : Handle × ExampleBase :=
  let h := s.context.device.nextHandle + 1
  (h, { s with context := { s.context with
          device := { nextHandle := h, trace := s.context.device.trace ++ [.createFence h] } } })

/-- The call `device.allocateCommandBuffers(info)` with `info.commandPool = pool`,
`info.level = level` and `info.commandBufferCount = count`: returns `count` fresh handles. -/
def ExampleBase.allocateCommandBuffers (s : ExampleBase) (pool : Handle)
    (level : CommandBufferLevel) (count : Nat) : List Handle × ExampleBase :=
  let n := s.context.device.nextHandle
  let buffers := (List.range count).map fun k => n + 1 + k
  (buffers, { s with context := { s.context with
          device := { nextHandle := n + count,
                      trace := s.context.device.trace ++
                        [.allocateCommandBuffers pool level count buffers] } } })

/-! ## Swap chain and context helpers

`vks::SwapChain` and `vks::Context` belong to the repository but their sources are not part of
the translated files; the helpers the class calls are modelled from the specification. -/

/-- Modelled from the spec: `vks::SwapChain::getSubmitFence` is missing from the sources.  The
presenter owns "one fence per image (submit fence)"; the call yields the fence of the image
the presenter currently holds (null when it has none). -/
def SwapChain.getSubmitFence (sc : SwapChain) : Handle :=
  sc.submitFences.getD sc.currentImage nullHandle

/-- Modelled from the spec: `vks::SwapChain::clearSubmitFence` is missing from the sources.
"A submit fence is cleared from in use": the slot of image `fenceIndex` is reset to null. -/
def SwapChain.clearSubmitFence (sc : SwapChain) (fenceIndex : Nat) : SwapChain :=
  { sc with submitFences := sc.submitFences.set fenceIndex nullHandle }

/-- The statement `context.dumpster.push_back(lambda)`, with the lambda given by its body. -/
def ExampleBase.dumpsterPushBack (s : ExampleBase) (a : DisposalAction) : ExampleBase :=
  { s with context := { s.context with dumpster := s.context.dumpster ++ [a] } }

/-- The statement `context.recycler.push({ fence, lambda })`, with the lambda given by its body. -/
def ExampleBase.recyclerPush (s : ExampleBase) (fence : Handle) (body : List DisposalAction) :
    ExampleBase :=
  { s with context := { s.context with recycler := s.context.recycler ++ [(fence, body)] } }

/-- Modelled from the spec: `vks::Context::trashCommandBuffers` is missing from the sources.
The dumpster is "a list of command buffers awaiting a known-safe fence before being returned to
the pool": the call adds a disposal entry that frees the given buffers from the context's
command pool. -/
def ExampleBase.trashCommandBuffers (s : ExampleBase) (buffers : List Handle) : ExampleBase :=
  (s.emit (.trashCommandBuffers buffers)).dumpsterPushBack
    (.freeCommandBuffers s.context.commandPool buffers)

/-- Modelled from the spec: `vks::Context::emptyDumpster` is missing from the sources.  The
dumpster is "flushed into the recycler once a fence is chosen": its entries become one
recycler entry gated on `fence`, and the dumpster is left empty. -/
def ExampleBase.emptyDumpster (s : ExampleBase) (fence : Handle) : ExampleBase :=
  let s1 := s.emit (.emptyDumpster fence)
  { s1 with context := { s1.context with
      dumpster := []
      recycler := s1.context.recycler ++ [(fence, s1.context.dumpster)] } }

/-- Run the body of one cleanup lambda. -/
def ExampleBase.runAction (s : ExampleBase) : DisposalAction → ExampleBase
  | .freeCommandBuffers pool buffers => s.emit (.freeCommandBuffers pool buffers)
  | .destroySemaphore h => s.emit (.destroySemaphore h)
  | .clearSubmitFence i =>
      let s1 := s.emit (.clearSubmitFence i)
      { s1 with swapChain := s1.swapChain.clearSubmitFence i }

/-- One poll of the recycler over the given entries: returns the entries that stay and the
state after the closures of the signaled ones have run. -/
def ExampleBase.pollEntries (signaled : Handle → Bool) :
    List (Handle × List DisposalAction) → ExampleBase →
      List (Handle × List DisposalAction) × ExampleBase
  | [], s => ([], s)
  | (fence, body) :: rest, s =>
      let s1 := s.emit (.getFenceStatus fence (signaled fence))
      if signaled fence then
        ExampleBase.pollEntries signaled rest (body.foldl ExampleBase.runAction s1)
      else
        let r := ExampleBase.pollEntries signaled rest s1
        ((fence, body) :: r.1, r.2)

/-- Modelled from the spec: `vks::Context::recycle` is missing from the sources.  "The recycler
is polled: any entry whose fence is signaled has its closure invoked and is removed;
unsignaled entries are left for a later frame."  `signaled` is the fence status the device
reports during this poll. -/
def ExampleBase.recycle (signaled : Handle → Bool) (s : ExampleBase) : ExampleBase :=
  let s1 := s.emit .recycle
  let r := ExampleBase.pollEntries signaled s1.context.recycler s1
  { r.2 with context := { r.2.context with recycler := r.1 } }

/-! ## `buildCommandBuffers` (lines 116-158) -/

/-- One iteration of the `for` loop of `buildCommandBuffers`, for index `i`.  `hook` is the
virtual `updatePrimaryCommandBuffer`, given by the commands it records. -/
def buildCommandBuffersBody (hook : Handle → List Nat) (i : Nat) (s : ExampleBase) : Outcome :=
  match s.primaryCmdBuffers[i]? with
  | none => .fail .outOfRange s
  | some cmdBuffer =>
    let s1 := s.emit (.cmdReset cmdBuffer eReleaseResources)
    let s2 := s1.emit (.cmdBegin cmdBuffer eSimultaneousUse none)
    let s3 := s2.emit (.updatePrimaryCommandBuffer cmdBuffer (hook cmdBuffer))
    match s3.framebuffers[i]? with
    | none => .fail .outOfRange s3
    | some framebuffer =>
      let s4 := { s3 with renderPassBeginInfo :=
                    { s3.renderPassBeginInfo with framebuffer := framebuffer } }
      let s5 := s4.emit (.cmdBeginRenderPass cmdBuffer s4.renderPassBeginInfo.renderPass
                  s4.renderPassBeginInfo.framebuffer .eSecondaryCommandBuffers)
      if !s5.drawCmdBuffers.isEmpty then
        match s5.drawCmdBuffers[i]? with
        | none => .fail .outOfRange s5
        | some secondary =>
          let s6 := s5.emit (.cmdExecuteCommands cmdBuffer secondary)
          let s7 := s6.emit (.cmdEndRenderPass cmdBuffer)
          .ok (s7.emit (.cmdEnd cmdBuffer))
      else
        let s7 := s5.emit (.cmdEndRenderPass cmdBuffer)
        .ok (s7.emit (.cmdEnd cmdBuffer))

/-- The `for` loop of `buildCommandBuffers`, run for the indices in the list. -/
def buildCommandBuffersLoop (hook : Handle → List Nat) : List Nat → ExampleBase → Outcome
  | [], s => .ok s
  | i :: rest, s =>
      (buildCommandBuffersBody hook i s).andThen (buildCommandBuffersLoop hook rest)

/-- Lines 120-138 of `buildCommandBuffers`, reached when `drawCmdBuffers` is not empty: trash
the primaries, wait for the queue to go idle, allocate primaries if the vector is empty. -/
def buildCommandBuffersSetup (s : ExampleBase) : ExampleBase :=
  let s1 := s.trashCommandBuffers s.primaryCmdBuffers
  let s2 := s1.emit .queueWaitIdle
  if s2.primaryCmdBuffers.isEmpty then
    let r := s2.allocateCommandBuffers s2.cmdPool .ePrimary s2.swapChain.imageCount
    { r.2 with primaryCmdBuffers := r.1 }
  else s2

/-- The member function `buildCommandBuffers()`. -/
def buildCommandBuffers (hook : Handle → List Nat) (s : ExampleBase) : Outcome :=
  if s.drawCmdBuffers.isEmpty then
    .fail (.runtimeError "Draw command buffers have not been populated.") s
  else
    let s3 := buildCommandBuffersSetup s
    (buildCommandBuffersLoop hook (List.range s3.swapChain.imageCount) s3).andThen fun s4 =>
      .ok { s4 with primaryCmdBuffersDirty := false }

/-! ## `populateSubCommandBuffers` and `updateDrawCommandBuffers` (lines 377-413) -/

/-- The body of the `for` loop of `populateSubCommandBuffers`, run for the indices in the
list.  `cmdBuffers` is the vector the reference parameter denotes; `f` is the recording
callback, given by the scene commands it records for the image index and buffer it sees. -/
def populateSubCommandBuffersLoop (f : Nat → Handle → List Nat) (cmdBuffers : List Handle) :
    List Nat → ExampleBase → Outcome
  | [], s => .ok s
  | i :: rest, s =>
      let s1 := { s with currentBuffer := i }
      match s1.framebuffers[i]? with
      | none => .fail .outOfRange s1
      | some framebuffer =>
        match cmdBuffers[i]? with
        | none => .fail .outOfRange s1
        | some cmdBuffer =>
          let s2 := s1.emit (.cmdReset cmdBuffer eReleaseResources)
          let s3 := s2.emit (.cmdBegin cmdBuffer (eRenderPassContinue ||| eSimultaneousUse)
                      (some (s2.renderPass, 0, framebuffer)))
          let s4 := s3.emit (.recordFn s3.currentBuffer cmdBuffer (f s3.currentBuffer cmdBuffer))
          populateSubCommandBuffersLoop f cmdBuffers rest (s4.emit (.cmdEnd cmdBuffer))

/-- The member function `populateSubCommandBuffers(cmdBuffers, f)`.  The first component of the
result is the content of the vector `cmdBuffers` refers to when the function stops. -/
def populateSubCommandBuffers (s : ExampleBase) (cmdBuffers : List Handle)
    (f : Nat → Handle → List Nat) : List Handle × Outcome :=
  let s1 := if !cmdBuffers.isEmpty then s.trashCommandBuffers cmdBuffers else s
  let r := s1.allocateCommandBuffers s1.context.commandPool .eSecondary s1.swapChain.imageCount
  let cmdBuffers1 := r.1
  let s2 := r.2
  (cmdBuffers1,
    (populateSubCommandBuffersLoop f cmdBuffers1 (List.range s2.swapChain.imageCount) s2).andThen
      fun s3 => .ok { s3 with currentBuffer := 0 })

/-- The member function `updateDrawCommandBuffers()`; `updateDrawCommandBuffer` is the pure
virtual recording function of the derived class.  The vector passed by reference is the
member `drawCmdBuffers`, so it holds the new buffers whether or not the loop completes. -/
def updateDrawCommandBuffers (updateDrawCommandBuffer : Nat → Handle → List Nat)
    (s : ExampleBase) : Outcome :=
  let r := populateSubCommandBuffers s s.drawCmdBuffers updateDrawCommandBuffer
  match r.2 with
  | .ok s1 => .ok { s1 with drawCmdBuffers := r.1, primaryCmdBuffersDirty := true }
  | .fail e s1 => .fail e { s1 with drawCmdBuffers := r.1 }

/-! ## `executePendingTransfers` (lines 468-516) -/

/-- The member function `executePendingTransfers(transferPending)`. -/
def executePendingTransfers (ndebug : Bool) (s : ExampleBase) (transferPending : Handle) :
    Outcome :=
  if !s.pendingUpdates.isEmpty then
    let r1 := s.createFence
    let transferFence := r1.1
    let r2 := r1.2.createSemaphore
    let s2 := { r2.2 with semaphores := { r2.2.semaphores with transferComplete := r2.1 } }
    if !ndebug && transferPending == nullHandle then
      .fail (.assertion "transferPending") s2
    else if !ndebug && s2.semaphores.transferComplete == nullHandle then
      .fail (.assertion "semaphores.transferComplete") s2
    else
      let r3 := s2.allocateCommandBuffers s2.cmdPool .ePrimary 1
      match r3.1[0]? with
      | none => .fail .outOfRange r3.2
      | some transferCmdBuffer =>
        let s4 := r3.2.emit (.cmdBegin transferCmdBuffer eOneTimeSubmit none)
        let s5 := s4.pendingUpdates.foldl
          (fun acc update => acc.emit
            (.cmdUpdateBuffer transferCmdBuffer update.buffer update.offset update.size update.data))
          s4
        let s6 := s5.emit (.cmdEnd transferCmdBuffer)
        let transferSubmitInfo : SubmitInfo :=
          { waitSemaphores := [transferPending]
            waitDstStageMask := [eAllCommands]
            signalSemaphores := [s6.semaphores.transferComplete]
            commandBuffers := [some transferCmdBuffer] }
        let s7 := s6.emit (.queueSubmit transferSubmitInfo transferFence)
        let s8 := s7.recyclerPush transferFence
          [.destroySemaphore transferPending, .freeCommandBuffers s7.cmdPool [transferCmdBuffer]]
        .ok { s8 with pendingUpdates := [] }
  else
    .ok s

/-! ## `drawCurrentCommandBuffer` (lines 420-466) -/

/-- Lines 421-462 of `drawCurrentCommandBuffer(semaphore)`: everything up to and including the
draw submission.  Returns the state after `context.queue.submit(submitInfo, fence)` together
with the value of the local `transferPending`. -/
def drawCurrentCommandBufferSubmit (s : ExampleBase) (semaphore : Handle) :
    ExampleBase × Handle :=
  let fence := s.swapChain.getSubmitFence
  let s1 := s.emit (.getSubmitFence fence)
  let fenceIndex := s1.currentBuffer
  let s2 := s1.dumpsterPushBack (.clearSubmitFence fenceIndex)
  let waitSemaphores0 : List Handle :=
    [if semaphore == nullHandle then s2.semaphores.acquireComplete else semaphore]
  let waitStages0 : List PipelineStageFlags := [s2.submitPipelineStages]
  let w : List Handle × List PipelineStageFlags × ExampleBase :=
    if s2.semaphores.transferComplete != nullHandle then
      let transferComplete := s2.semaphores.transferComplete
      let s3 := { s2 with semaphores := { s2.semaphores with transferComplete := nullHandle } }
      (waitSemaphores0 ++ [transferComplete], waitStages0 ++ [eTransfer],
        s3.dumpsterPushBack (.destroySemaphore transferComplete))
    else (waitSemaphores0, waitStages0, s2)
  let waitSemaphores := w.1
  let waitStages := w.2.1
  let s4 := w.2.2.emptyDumpster fence
  let signalSemaphores0 : List Handle := [s4.semaphores.renderComplete]
  let g : Handle × List Handle × ExampleBase :=
    if !s4.pendingUpdates.isEmpty then
      let r := s4.createSemaphore
      (r.1, signalSemaphores0 ++ [r.1], r.2)
    else (nullHandle, signalSemaphores0, s4)
  let transferPending := g.1
  let signalSemaphores := g.2.1
  let s5 := g.2.2
  let submitInfo : SubmitInfo :=
    { waitSemaphores := waitSemaphores
      waitDstStageMask := waitStages
      signalSemaphores := signalSemaphores
      commandBuffers := [s5.primaryCmdBuffers[s5.currentBuffer]?] }
  (s5.emit (.queueSubmit submitInfo fence), transferPending)

/-- The member function `drawCurrentCommandBuffer(semaphore)`.  `signaled` is the fence status
the device reports during the closing `context.recycle()`. -/
def drawCurrentCommandBuffer (ndebug : Bool) (signaled : Handle → Bool) (s : ExampleBase)
    (semaphore : Handle) : Outcome :=
  let r := drawCurrentCommandBufferSubmit s semaphore
  (executePendingTransfers ndebug r.1 r.2).andThen fun s1 => .ok (s1.recycle signaled)

/-- The call `drawCurrentCommandBuffer()` with the default argument `vk::Semaphore()`. -/
def drawCurrentCommandBufferDefault (ndebug : Bool) (signaled : Handle → Bool)
    (s : ExampleBase) : Outcome :=
  drawCurrentCommandBuffer ndebug signaled s nullHandle

/-! ## Enqueueing a pending update -/

/-- Modelled from the spec: `enqueueUpdate(targetBuffer, bytes, offset)` has no definition in the
sources; it constructs an `UpdateOperation` and appends it to the `std::list` member
`pendingUpdates` ("collected in arrival order"). -/
def enqueueUpdate (ndebug : Bool) (s : ExampleBase) (buffer : Handle) (sizeofT : Nat)
    (data : Nat) (offset : Nat) : Outcome :=
  match UpdateOperation.construct ndebug buffer sizeofT data offset with
  | .error e => .fail e s
  | .ok u => .ok { s with pendingUpdates := s.pendingUpdates ++ [u] }

/-! ## Reading the trace -/

/-- The calls appended to the trace between state `s` and a later state `t`. -/
def newEvents (s t : ExampleBase) : List Event := t.trace.drop s.trace.length

/-- The queue submissions among a list of calls, in order. -/
def submissions : List Event → List (SubmitInfo × Handle)
  | [] => []
  | .queueSubmit info fence :: rest => (info, fence) :: submissions rest
  | _ :: rest => submissions rest

/-- The commands recorded into command buffer `cb` among a list of calls, in order, between
its `begin` and `end`. -/
def updatesRecordedInto (cb : Handle) : List Event → List UpdateOperation
  | [] => []
  | .cmdUpdateBuffer c buffer offset size data :: rest =>
      if c = cb then { buffer := buffer, size := size, offset := offset, data := data }
                       :: updatesRecordedInto cb rest
      else updatesRecordedInto cb rest
  | _ :: rest => updatesRecordedInto cb rest

/-! ## `buildCommandBuffers` with the helper's effect on its argument left open

`context.trashCommandBuffers` receives the vector `primaryCmdBuffers` itself, and neither the
sources nor the specification say whether the helper leaves that vector as it is or empties
it after taking its contents.  The definitions below read lines 116-158 with that choice as a
parameter; with `emptiesArgument = false` they are the definitions above. -/

/-- Modelled from the spec: `vks::Context::trashCommandBuffers` is missing from the sources.
The call routes the given buffers to the disposal queue, as `ExampleBase.trashCommandBuffers`
does; the first component is the content of the caller's vector after the call, left as it
was or emptied according to `emptiesArgument`. -/
def trashCommandBuffersByRef (emptiesArgument : Bool) (s : ExampleBase)
    (buffers : List Handle) : List Handle × ExampleBase :=
  (if emptiesArgument then [] else buffers, s.trashCommandBuffers buffers)

/-- Lines 120-138 of `buildCommandBuffers`, with the helper's effect on `primaryCmdBuffers`
given by `emptiesArgument`. -/
def buildCommandBuffersSetupWith (emptiesArgument : Bool) (s : ExampleBase) : ExampleBase :=
  let r := trashCommandBuffersByRef emptiesArgument s s.primaryCmdBuffers
  let s1 := { r.2 with primaryCmdBuffers := r.1 }
  let s2 := s1.emit .queueWaitIdle
  if s2.primaryCmdBuffers.isEmpty then
    let a := s2.allocateCommandBuffers s2.cmdPool .ePrimary s2.swapChain.imageCount
    { a.2 with primaryCmdBuffers := a.1 }
  else s2

/-- The member function `buildCommandBuffers()`, with the helper's effect on
`primaryCmdBuffers` given by `emptiesArgument`. -/
def buildCommandBuffersWith (emptiesArgument : Bool) (hook : Handle → List Nat)
    (s : ExampleBase) : Outcome :=
  if s.drawCmdBuffers.isEmpty then
    .fail (.runtimeError "Draw command buffers have not been populated.") s
  else
    let s3 := buildCommandBuffersSetupWith emptiesArgument s
    (buildCommandBuffersLoop hook (List.range s3.swapChain.imageCount) s3).andThen fun s4 =>
      .ok { s4 with primaryCmdBuffersDirty := false }

/-! ## Definitions used to state the theorems -/

/-- Device memory: the byte stored at each offset of each buffer. -/
abbrev BufferMemory := Handle → Nat → Nat

/-- Effect of one pending update on device memory: bytes `offset .. offset + size - 1` of the
target buffer are overwritten with the `size` bytes found at host address `data`. -/
def applyUpdate (host : Nat → Nat) (mem : BufferMemory) (u : UpdateOperation) : BufferMemory :=
  fun b o =>
    if b = u.buffer ∧ u.offset ≤ o ∧ o < u.offset + u.size then host (u.data + (o - u.offset))
    else mem b o

/-- Effect on device memory of executing the update commands recorded into command buffer
`cb`, in recording order (`vkCmdUpdateBuffer` copies the source bytes into the target range). -/
def executeRecorded (host : Nat → Nat) (cb : Handle) (mem : BufferMemory) :
    List Event → BufferMemory
  | [] => mem
  | .cmdUpdateBuffer c buffer offset size data :: rest =>
      if c = cb then
        executeRecorded host cb
          (applyUpdate host mem { buffer := buffer, size := size, offset := offset, data := data })
          rest
      else executeRecorded host cb mem rest
  | _ :: rest => executeRecorded host cb mem rest

/-- The collaborator call made by the body of a cleanup lambda. -/
def DisposalAction.event : DisposalAction → Event
  | .freeCommandBuffers pool buffers => .freeCommandBuffers pool buffers
  | .destroySemaphore h => .destroySemaphore h
  | .clearSubmitFence i => .clearSubmitFence i

/-- Effect of the body of a cleanup lambda on the swap chain. -/
def DisposalAction.onSwapChain (sc : SwapChain) : DisposalAction → SwapChain
  | .clearSubmitFence i => sc.clearSubmitFence i
  | _ => sc

/-- Calls made by one recycler poll over the given entries. -/
def pollTrace (signaled : Handle → Bool) : List (Handle × List DisposalAction) → List Event
  | [] => []
  | (fence, body) :: rest =>
      .getFenceStatus fence (signaled fence) ::
        ((if signaled fence then body.map DisposalAction.event else []) ++ pollTrace signaled rest)

/-- Swap chain after one recycler poll over the given entries. -/
def pollSwapChain (signaled : Handle → Bool) :
    List (Handle × List DisposalAction) → SwapChain → SwapChain
  | [], sc => sc
  | (fence, body) :: rest, sc =>
      pollSwapChain signaled rest
        (if signaled fence then body.foldl DisposalAction.onSwapChain sc else sc)

/-- Calls that only cleanup lambdas and the recycler poll make. -/
def Event.isCleanup : Event → Bool
  | .recycle => true
  | .getFenceStatus _ _ => true
  | .freeCommandBuffers _ _ => true
  | .destroySemaphore _ => true
  | .clearSubmitFence _ => true
  | _ => false

/-- The `vk::SubmitInfo` of the draw submission, read off the state on entry: `semaphore` is the
argument and `fresh` the handle the next creation call returns. -/
def drawSubmitInfo (s : ExampleBase) (semaphore : Handle) : SubmitInfo :=
  { waitSemaphores :=
      (if semaphore = nullHandle then s.semaphores.acquireComplete else semaphore) ::
        (if s.semaphores.transferComplete = nullHandle then []
         else [s.semaphores.transferComplete])
    waitDstStageMask :=
      s.submitPipelineStages ::
        (if s.semaphores.transferComplete = nullHandle then [] else [eTransfer])
    signalSemaphores :=
      s.semaphores.renderComplete ::
        (if s.pendingUpdates = [] then [] else [s.context.device.nextHandle + 1])
    commandBuffers := [s.primaryCmdBuffers[s.currentBuffer]?] }

/-- The calls of one transfer flush: `cmdPool` is the pool member, `n` the last handle the
device handed out before the flush, `tp` the argument and `us` the pending updates. -/
def flushTrace (cmdPool : Handle) (n : Nat) (tp : Handle) (us : List UpdateOperation) :
    List Event :=
  [.createFence (n + 1), .createSemaphore (n + 2),
   .allocateCommandBuffers cmdPool .ePrimary 1 [n + 3],
   .cmdBegin (n + 3) eOneTimeSubmit none] ++
  us.map (fun u => Event.cmdUpdateBuffer (n + 3) u.buffer u.offset u.size u.data) ++
  [.cmdEnd (n + 3),
   .queueSubmit
      { waitSemaphores := [tp]
        waitDstStageMask := [eAllCommands]
        signalSemaphores := [n + 2]
        commandBuffers := [some (n + 3)] }
      (n + 1)]

/-- The calls of lines 421-462 of `drawCurrentCommandBuffer`. -/
def drawTrace (s : ExampleBase) (semaphore : Handle) : List Event :=
  [.getSubmitFence s.swapChain.getSubmitFence, .emptyDumpster s.swapChain.getSubmitFence] ++
  (if s.pendingUpdates = [] then [] else [.createSemaphore (s.context.device.nextHandle + 1)]) ++
  [.queueSubmit (drawSubmitInfo s semaphore) s.swapChain.getSubmitFence]

/-- The recycler entries present when the closing `context.recycle()` of a frame runs. -/
def frameRecycler (s : ExampleBase) : List (Handle × List DisposalAction) :=
  s.context.recycler ++
    [(s.swapChain.getSubmitFence,
      s.context.dumpster ++ [.clearSubmitFence s.currentBuffer] ++
        (if s.semaphores.transferComplete = nullHandle then []
         else [.destroySemaphore s.semaphores.transferComplete]))] ++
    (if s.pendingUpdates = [] then []
     else [(s.context.device.nextHandle + 2,
            [.destroySemaphore (s.context.device.nextHandle + 1),
             .freeCommandBuffers s.cmdPool [s.context.device.nextHandle + 4]])])

/-- Calls that create a device object: a semaphore, a fence or command buffers. -/
def Event.isCreation : Event → Bool
  | .createSemaphore _ => true
  | .createFence _ => true
  | .allocateCommandBuffers _ _ _ _ => true
  | _ => false

/-- A state used to instantiate the theorems: three swap-chain images, image 1 acquired, two
pending updates, no transfer outstanding. -/
def sampleState : ExampleBase :=
  { primaryCmdBuffers := [21, 22, 23]
    drawCmdBuffers := [31, 32, 33]
    primaryCmdBuffersDirty := true
    renderPassBeginInfo := { renderPass := 9, framebuffer := 0 }
    pendingUpdates := [{ buffer := 61, size := 8, offset := 0, data := 1000 },
                       { buffer := 62, size := 4, offset := 16, data := 2000 }]
    submitPipelineStages := eBottomOfPipe
    renderPass := 9
    framebuffers := [41, 42, 43]
    currentBuffer := 1
    context := { device := { nextHandle := 100, trace := [] }, commandPool := 5,
                 dumpster := [], recycler := [] }
    swapChain := { imageCount := 3, currentImage := 1, submitFences := [11, 12, 13] }
    semaphores := { acquireComplete := 51, renderComplete := 52, overlayComplete := 53,
                    transferComplete := 0 }
    cmdPool := 6 }

/-- The `vk::SubmitInfo` of the transfer submission of a frame entered in state `s`. -/
def transferSubmitInfo (s : ExampleBase) : SubmitInfo :=
  { waitSemaphores := [s.context.device.nextHandle + 1]
    waitDstStageMask := [eAllCommands]
    signalSemaphores := [s.context.device.nextHandle + 3]
    commandBuffers := [some (s.context.device.nextHandle + 4)] }

/-- The queue submissions of a frame entered in state `s`, in order. -/
def frameSubmissions (s : ExampleBase) (semaphore : Handle) : List (SubmitInfo × Handle) :=
  (drawSubmitInfo s semaphore, s.swapChain.getSubmitFence) ::
    (if s.pendingUpdates = [] then []
     else [(transferSubmitInfo s, s.context.device.nextHandle + 2)])

/-- The calls `populateSubCommandBuffers` makes for image index `i`: reset, begin with the
inheritance info bound to `framebuffers[i]`, the recording callback, end.  (`getD` reads the
element; the index is in range wherever this is used.) -/
def secondaryRecording (f : Nat → Handle → List Nat) (renderPass : Handle)
    (framebuffers cmdBuffers : List Handle) (i : Nat) : List Event :=
  [.cmdReset (cmdBuffers.getD i nullHandle) eReleaseResources,
   .cmdBegin (cmdBuffers.getD i nullHandle) (eRenderPassContinue ||| eSimultaneousUse)
      (some (renderPass, 0, framebuffers.getD i nullHandle)),
   .recordFn i (cmdBuffers.getD i nullHandle) (f i (cmdBuffers.getD i nullHandle)),
   .cmdEnd (cmdBuffers.getD i nullHandle)]

/-- The handles a device whose last handle was `n` returns for an allocation of `count`
command buffers. -/
def freshBuffers (n count : Nat) : List Handle := (List.range count).map fun k => n + 1 + k

/-- The invocations of the recording callback among a list of calls, in order: the value of
`currentBuffer` seen and the command buffer passed. -/
def invocations : List Event → List (Nat × Handle)
  | [] => []
  | .recordFn cur cb _ :: rest => (cur, cb) :: invocations rest
  | _ :: rest => invocations rest

/-- The calls `buildCommandBuffers` makes for image index `i`, with `primaries` the content of
`primaryCmdBuffers` when the loop starts: reset, begin, the pre-pass hook, begin render pass on
`framebuffers[i]` in secondary-command-buffer mode, execute `drawCmdBuffers[i]`, end render
pass, end.  (`getD` reads the element; the index is in range wherever this is used.) -/
def primaryRecording (hook : Handle → List Nat) (renderPass : Handle)
    (primaries framebuffers drawCmdBuffers : List Handle) (i : Nat) : List Event :=
  [.cmdReset (primaries.getD i nullHandle) eReleaseResources,
   .cmdBegin (primaries.getD i nullHandle) eSimultaneousUse none,
   .updatePrimaryCommandBuffer (primaries.getD i nullHandle) (hook (primaries.getD i nullHandle)),
   .cmdBeginRenderPass (primaries.getD i nullHandle) renderPass
      (framebuffers.getD i nullHandle) .eSecondaryCommandBuffers,
   .cmdExecuteCommands (primaries.getD i nullHandle) (drawCmdBuffers.getD i nullHandle),
   .cmdEndRenderPass (primaries.getD i nullHandle),
   .cmdEnd (primaries.getD i nullHandle)]

/-- Whether, in a list of calls, a recycler poll (`context.recycle()`) comes before the first
queue submission. -/
def pollPrecedesFirstSubmit : List Event → Bool
  | [] => false
  | .recycle :: _ => true
  | .queueSubmit _ _ :: _ => false
  | _ :: rest => pollPrecedesFirstSubmit rest

/-- What happens around one call of `drawCurrentCommandBuffer` in a run of frames: the updates
enqueued since the previous call, the semaphore argument, and the fence status the device
reports during the closing poll. -/
structure FrameInput where
  enqueued : List UpdateOperation
  semaphore : Handle
  signaled : Handle → Bool

/-- The state in which a frame's `drawCurrentCommandBuffer` is entered: the updates enqueued
since the previous frame are at the back of `pendingUpdates`. -/
def frameEntry (inp : FrameInput) (s : ExampleBase) : ExampleBase :=
  { s with pendingUpdates := s.pendingUpdates ++ inp.enqueued }

/-- One frame: enqueue, then `drawCurrentCommandBuffer`. -/
def frameStep (ndebug : Bool) (inp : FrameInput) (s : ExampleBase) : ExampleBase :=
  (drawCurrentCommandBuffer ndebug inp.signaled (frameEntry inp s) inp.semaphore).state

/-- A sequence of `drawCurrentCommandBuffer` calls, with updates enqueued in between. -/
def runFrames (ndebug : Bool) : List FrameInput → ExampleBase → ExampleBase
  | [], s => s
  | inp :: rest, s => runFrames ndebug rest (frameStep ndebug inp s)

/-- The semaphores the draw submission of one frame waits on besides the acquire (or caller)
semaphore: the wait list of the frame's first submission without its first element. -/
def frameTransferWaits (ndebug : Bool) (inp : FrameInput) (s : ExampleBase) : List Handle :=
  match submissions (newEvents (frameEntry inp s) (frameStep ndebug inp s)) with
  | [] => []
  | (info, _) :: _ => info.waitSemaphores.drop 1

/-- The transfer-complete semaphores waited on by the draw submissions of a run, in order. -/
def runTransferWaits (ndebug : Bool) : List FrameInput → ExampleBase → List Handle
  | [], _ => []
  | inp :: rest, s =>
      frameTransferWaits ndebug inp s ++ runTransferWaits ndebug rest (frameStep ndebug inp s)

/-- The semaphores destroyed by a list of calls, in order. -/
def destroyedSemaphores : List Event → List Handle
  | [] => []
  | .destroySemaphore h :: rest => h :: destroyedSemaphores rest
  | _ :: rest => destroyedSemaphores rest

/-- The semaphores a list of cleanup actions will destroy, in order. -/
def semaphoresOfActions : List DisposalAction → List Handle
  | [] => []
  | .destroySemaphore h :: rest => h :: semaphoresOfActions rest
  | _ :: rest => semaphoresOfActions rest

/-- The semaphores recycler entries will destroy, in order. -/
def semaphoresOfEntries : List (Handle × List DisposalAction) → List Handle
  | [] => []
  | en :: rest => semaphoresOfActions en.2 ++ semaphoresOfEntries rest

/-- Every semaphore whose destruction the state has seen or still owes: those already
destroyed in the trace, those scheduled in the recycler and in the disposal queue, and the
outstanding transfer-complete semaphore. -/
def semaphoresToDestroy (s : ExampleBase) : List Handle :=
  destroyedSemaphores s.context.device.trace ++ semaphoresOfEntries s.context.recycler ++
    semaphoresOfActions s.context.dumpster ++
    (if s.semaphores.transferComplete = nullHandle then [] else [s.semaphores.transferComplete])

/-- A state is consistent with its device when the semaphores it has destroyed or still owes
for destruction are pairwise different and were all handed out by the device (the device has
issued exactly the handles `1 .. nextHandle`). -/
def HandlesConsistent (s : ExampleBase) : Prop :=
  (semaphoresToDestroy s).Nodup ∧
  ∀ h ∈ semaphoresToDestroy s, h ≤ s.context.device.nextHandle

/-- Three frames used to instantiate the run theorems: the first flushes the updates already
pending, the second enqueues one more update, the third enqueues nothing; every fence is
reported signaled at each poll. -/
def sampleFrames : List FrameInput :=
  [{ enqueued := [], semaphore := nullHandle, signaled := fun _ => true },
   { enqueued := [{ buffer := 63, size := 4, offset := 0, data := 3000 }],
     semaphore := nullHandle, signaled := fun _ => true },
   { enqueued := [], semaphore := nullHandle, signaled := fun _ => true }]

/-! ## Supporting lemmas -/

@[simp] theorem trace_emit (s : ExampleBase) (e : Event) : (s.emit e).trace = s.trace ++ [e] := rfl

theorem newEvents_of_trace_eq {s t : ExampleBase} {es : List Event}
    (h : t.trace = s.trace ++ es) : newEvents s t = es := by
  simp [newEvents, h]

theorem foldl_emit_update (cb : Handle) (us : List UpdateOperation) (s : ExampleBase) :
    us.foldl (fun acc u => acc.emit (.cmdUpdateBuffer cb u.buffer u.offset u.size u.data)) s
      = s.emitAll (us.map fun u => .cmdUpdateBuffer cb u.buffer u.offset u.size u.data) := by
  induction us generalizing s with
  | nil => simp [ExampleBase.emitAll]
  | cons u us ih =>
    simp only [List.foldl_cons, List.map_cons, ih]
    simp [ExampleBase.emitAll, ExampleBase.emit]

theorem updatesRecordedInto_append (cb : Handle) (xs ys : List Event) :
    updatesRecordedInto cb (xs ++ ys) = updatesRecordedInto cb xs ++ updatesRecordedInto cb ys := by
  induction xs with
  | nil => rfl
  | cons e xs ih =>
    cases e <;> simp [updatesRecordedInto, ih]
    split <;> simp

theorem updatesRecordedInto_map (cb : Handle) (us : List UpdateOperation) :
    updatesRecordedInto cb
      (us.map fun u => Event.cmdUpdateBuffer cb u.buffer u.offset u.size u.data) = us := by
  induction us with
  | nil => rfl
  | cons u us ih => simp [updatesRecordedInto, ih]

theorem executeRecorded_eq_foldl (host : Nat → Nat) (cb : Handle) (es : List Event)
    (mem : BufferMemory) :
    executeRecorded host cb mem es = (updatesRecordedInto cb es).foldl (applyUpdate host) mem := by
  induction es generalizing mem with
  | nil => rfl
  | cons e es ih =>
    cases e <;> simp [executeRecorded, updatesRecordedInto, ih]
    split <;> simp

/-- Exact effect of `executePendingTransfers` on a non-empty queue when its assertions hold. -/
theorem executePendingTransfers_nonempty (ndebug : Bool) (s : ExampleBase) (tp : Handle)
    (hne : s.pendingUpdates ≠ []) (hpre : ndebug = true ∨ tp ≠ nullHandle) :
    executePendingTransfers ndebug s tp = .ok
      { s with
        pendingUpdates := []
        semaphores := { s.semaphores with transferComplete := s.context.device.nextHandle + 2 }
        context := { s.context with
          device :=
            { nextHandle := s.context.device.nextHandle + 3
              trace := s.context.device.trace ++
                ([.createFence (s.context.device.nextHandle + 1),
                  .createSemaphore (s.context.device.nextHandle + 2),
                  .allocateCommandBuffers s.cmdPool .ePrimary 1 [s.context.device.nextHandle + 3],
                  .cmdBegin (s.context.device.nextHandle + 3) eOneTimeSubmit none] ++
                 s.pendingUpdates.map (fun u =>
                    Event.cmdUpdateBuffer (s.context.device.nextHandle + 3)
                      u.buffer u.offset u.size u.data) ++
                 [.cmdEnd (s.context.device.nextHandle + 3),
                  .queueSubmit
                    { waitSemaphores := [tp]
                      waitDstStageMask := [eAllCommands]
                      signalSemaphores := [s.context.device.nextHandle + 2]
                      commandBuffers := [some (s.context.device.nextHandle + 3)] }
                    (s.context.device.nextHandle + 1)]) }
          recycler := s.context.recycler ++
            [(s.context.device.nextHandle + 1,
              [.destroySemaphore tp,
               .freeCommandBuffers s.cmdPool [s.context.device.nextHandle + 3]])] } } := by
  have h1 : s.pendingUpdates.isEmpty = false := by
    cases h : s.pendingUpdates with
    | nil => exact absurd h hne
    | cons _ _ => rfl
  have h2 : ¬ (ndebug = false ∧ tp = 0) := by
    rcases hpre with h | h
    · simp [h]
    · intro hc; exact h hc.2
  unfold executePendingTransfers
  simp only [foldl_emit_update]
  simp [h1, h2, ExampleBase.createFence, ExampleBase.createSemaphore,
    ExampleBase.allocateCommandBuffers, nullHandle, ExampleBase.emitAll,
    ExampleBase.emit, ExampleBase.recyclerPush, List.range_succ]

theorem foldl_runAction (body : List DisposalAction) (s : ExampleBase) :
    body.foldl ExampleBase.runAction s =
      { s with
        swapChain := body.foldl DisposalAction.onSwapChain s.swapChain
        context := { s.context with
          device := { s.context.device with
            trace := s.context.device.trace ++ body.map DisposalAction.event } } } := by
  induction body generalizing s with
  | nil => simp
  | cons a body ih =>
    rw [List.foldl_cons, ih]
    cases a <;>
      simp [ExampleBase.runAction, ExampleBase.emit, DisposalAction.event,
        DisposalAction.onSwapChain]

theorem pollEntries_eq (signaled : Handle → Bool) (entries : List (Handle × List DisposalAction))
    (s : ExampleBase) :
    ExampleBase.pollEntries signaled entries s =
      (entries.filter (fun en => !signaled en.1),
        { s with
          swapChain := pollSwapChain signaled entries s.swapChain
          context := { s.context with
            device := { s.context.device with
              trace := s.context.device.trace ++ pollTrace signaled entries } } }) := by
  induction entries generalizing s with
  | nil => simp [ExampleBase.pollEntries, pollTrace, pollSwapChain]
  | cons en entries ih =>
    obtain ⟨fence, body⟩ := en
    by_cases h : signaled fence = true
    · simp [ExampleBase.pollEntries, pollTrace, pollSwapChain, h, ih, foldl_runAction,
        ExampleBase.emit]
    · simp [ExampleBase.pollEntries, pollTrace, pollSwapChain, h, ih, ExampleBase.emit]

theorem recycle_eq (signaled : Handle → Bool) (s : ExampleBase) :
    s.recycle signaled =
      { s with
        swapChain := pollSwapChain signaled s.context.recycler s.swapChain
        context := { s.context with
          recycler := s.context.recycler.filter (fun en => !signaled en.1)
          device := { s.context.device with
            trace := s.context.device.trace ++
              (.recycle :: pollTrace signaled s.context.recycler) } } } := by
  simp [ExampleBase.recycle, pollEntries_eq, ExampleBase.emit]

theorem pollTrace_isCleanup (signaled : Handle → Bool)
    (entries : List (Handle × List DisposalAction)) :
    ∀ e ∈ pollTrace signaled entries, e.isCleanup = true := by
  induction entries with
  | nil => simp [pollTrace]
  | cons en entries ih =>
    obtain ⟨fence, body⟩ := en
    intro e he
    simp only [pollTrace, List.mem_cons, List.mem_append] at he
    rcases he with h | h | h
    · subst h; rfl
    · split at h
      · simp only [List.mem_map] at h
        obtain ⟨a, _, rfl⟩ := h
        cases a <;> rfl
      · simp at h
    · exact ih e h

theorem submissions_append (xs ys : List Event) :
    submissions (xs ++ ys) = submissions xs ++ submissions ys := by
  induction xs with
  | nil => rfl
  | cons e xs ih => cases e <;> simp [submissions, ih]

theorem submissions_of_no_submit (xs : List Event)
    (h : ∀ e ∈ xs, ∀ info fence, e ≠ .queueSubmit info fence) : submissions xs = [] := by
  induction xs with
  | nil => rfl
  | cons e xs ih =>
    have hx := ih (fun e he => h e (List.mem_cons_of_mem _ he))
    cases e <;> simp [submissions, hx]
    exact h _ (List.mem_cons_self _ _) _ _ rfl

theorem submissions_pollTrace (signaled : Handle → Bool)
    (entries : List (Handle × List DisposalAction)) :
    submissions (pollTrace signaled entries) = [] := by
  apply submissions_of_no_submit
  intro e he info fence hc
  have := pollTrace_isCleanup signaled entries e he
  subst hc
  simp [Event.isCleanup] at this

theorem submissions_updates (cb : Handle) (us : List UpdateOperation) :
    submissions (us.map fun u => Event.cmdUpdateBuffer cb u.buffer u.offset u.size u.data) = [] := by
  induction us with
  | nil => rfl
  | cons u us ih => simp [submissions, ih]

theorem isEmpty_eq_false_of_ne {α : Type} {l : List α} (h : l ≠ []) : l.isEmpty = false := by
  cases l with
  | nil => exact absurd rfl h
  | cons _ _ => rfl

theorem drawCurrentCommandBufferSubmit_eq (s : ExampleBase) (semaphore : Handle) :
    drawCurrentCommandBufferSubmit s semaphore =
      ({ s with
          semaphores := { s.semaphores with transferComplete := nullHandle }
          context := { s.context with
            dumpster := []
            recycler := s.context.recycler ++
              [(s.swapChain.getSubmitFence,
                s.context.dumpster ++ [.clearSubmitFence s.currentBuffer] ++
                  (if s.semaphores.transferComplete = nullHandle then []
                   else [.destroySemaphore s.semaphores.transferComplete]))]
            device :=
              { nextHandle :=
                  s.context.device.nextHandle + (if s.pendingUpdates = [] then 0 else 1)
                trace := s.context.device.trace ++
                  ([.getSubmitFence s.swapChain.getSubmitFence,
                    .emptyDumpster s.swapChain.getSubmitFence] ++
                   (if s.pendingUpdates = [] then []
                    else [.createSemaphore (s.context.device.nextHandle + 1)]) ++
                   [.queueSubmit (drawSubmitInfo s semaphore) s.swapChain.getSubmitFence]) } } },
        if s.pendingUpdates = [] then nullHandle else s.context.device.nextHandle + 1) := by
  by_cases hs : semaphore = 0 <;>
  by_cases htc : s.semaphores.transferComplete = 0 <;>
  by_cases hp : s.pendingUpdates = [] <;>
  simp [drawCurrentCommandBufferSubmit, drawSubmitInfo, hs, htc, hp, nullHandle,
    ExampleBase.emit, ExampleBase.dumpsterPushBack, ExampleBase.emptyDumpster,
    ExampleBase.createSemaphore, isEmpty_eq_false_of_ne] <;>
  (rw [← htc])

theorem executePendingTransfers_empty (ndebug : Bool) (s : ExampleBase) (tp : Handle)
    (h : s.pendingUpdates = []) : executePendingTransfers ndebug s tp = .ok s := by
  simp [executePendingTransfers, h]

theorem executePendingTransfers_flush (ndebug : Bool) (s : ExampleBase) (tp : Handle)
    (hne : s.pendingUpdates ≠ []) (hpre : ndebug = true ∨ tp ≠ nullHandle) :
    executePendingTransfers ndebug s tp = .ok
      { s with
        pendingUpdates := []
        semaphores := { s.semaphores with transferComplete := s.context.device.nextHandle + 2 }
        context := { s.context with
          device :=
            { nextHandle := s.context.device.nextHandle + 3
              trace := s.context.device.trace ++
                flushTrace s.cmdPool s.context.device.nextHandle tp s.pendingUpdates }
          recycler := s.context.recycler ++
            [(s.context.device.nextHandle + 1,
              [.destroySemaphore tp,
               .freeCommandBuffers s.cmdPool [s.context.device.nextHandle + 3]])] } } := by
  rw [executePendingTransfers_nonempty ndebug s tp hne hpre]
  simp [flushTrace]

theorem drawCurrentCommandBuffer_eq (ndebug : Bool) (signaled : Handle → Bool) (s : ExampleBase)
    (semaphore : Handle) :
    drawCurrentCommandBuffer ndebug signaled s semaphore = .ok
      { s with
        pendingUpdates := []
        semaphores := { s.semaphores with
          transferComplete :=
            if s.pendingUpdates = [] then nullHandle else s.context.device.nextHandle + 3 }
        swapChain := pollSwapChain signaled (frameRecycler s) s.swapChain
        context := { s.context with
          dumpster := []
          recycler := (frameRecycler s).filter (fun en => !signaled en.1)
          device :=
            { nextHandle :=
                s.context.device.nextHandle + (if s.pendingUpdates = [] then 0 else 4)
              trace := s.context.device.trace ++
                (drawTrace s semaphore ++
                 (if s.pendingUpdates = [] then []
                  else flushTrace s.cmdPool (s.context.device.nextHandle + 1)
                         (s.context.device.nextHandle + 1) s.pendingUpdates) ++
                 .recycle :: pollTrace signaled (frameRecycler s)) } } } := by
  by_cases hp : s.pendingUpdates = []
  · simp only [drawCurrentCommandBuffer]
    rw [executePendingTransfers_empty _ _ _ (by simp [drawCurrentCommandBufferSubmit_eq, hp])]
    simp [Outcome.andThen, recycle_eq, drawCurrentCommandBufferSubmit_eq, hp, drawTrace,
      frameRecycler]
  · simp only [drawCurrentCommandBuffer]
    rw [executePendingTransfers_flush _ _ _ (by simp [drawCurrentCommandBufferSubmit_eq, hp])
      (by simp [drawCurrentCommandBufferSubmit_eq, hp, nullHandle])]
    simp [Outcome.andThen, recycle_eq, drawCurrentCommandBufferSubmit_eq, hp, drawTrace,
      frameRecycler, add_assoc]


theorem filter_isCreation_pollTrace (signaled : Handle → Bool)
    (entries : List (Handle × List DisposalAction)) :
    (pollTrace signaled entries).filter Event.isCreation = [] := by
  rw [List.filter_eq_nil_iff]
  intro e he
  have h := pollTrace_isCleanup signaled entries e he
  cases e <;> simp_all [Event.isCleanup, Event.isCreation]

theorem filter_isCreation_updates (cb : Handle) (us : List UpdateOperation) :
    (us.map fun u => Event.cmdUpdateBuffer cb u.buffer u.offset u.size u.data).filter
      Event.isCreation = [] := by
  induction us with
  | nil => rfl
  | cons u us ih => simp [Event.isCreation, ih]

theorem updatesRecordedInto_map_ne (c cb : Handle) (h : cb ≠ c) (us : List UpdateOperation) :
    updatesRecordedInto c
      (us.map fun u => Event.cmdUpdateBuffer cb u.buffer u.offset u.size u.data) = [] := by
  induction us with
  | nil => rfl
  | cons u us ih => simp [updatesRecordedInto, ih, h]

theorem updatesRecordedInto_pollTrace (c : Handle) (signaled : Handle → Bool)
    (entries : List (Handle × List DisposalAction)) :
    updatesRecordedInto c (pollTrace signaled entries) = [] := by
  have h := pollTrace_isCleanup signaled entries
  generalize pollTrace signaled entries = xs at h
  induction xs with
  | nil => rfl
  | cons e xs ih =>
    have hx := ih (fun e he => h e (List.mem_cons_of_mem _ he))
    have he := h e (List.mem_cons_self _ _)
    cases e <;> simp_all [updatesRecordedInto, Event.isCleanup]

theorem updatesRecordedInto_flushTrace (c cmdPool : Handle) (n : Nat) (tp : Handle)
    (us : List UpdateOperation) :
    updatesRecordedInto c (flushTrace cmdPool n tp us) = if c = n + 3 then us else [] := by
  by_cases h : c = n + 3
  · subst h
    simp [flushTrace, updatesRecordedInto_append, updatesRecordedInto, updatesRecordedInto_map]
  · have h2 : n + 3 ≠ c := fun hc => h hc.symm
    simp [flushTrace, updatesRecordedInto_append, updatesRecordedInto,
      updatesRecordedInto_map_ne _ _ h2, h]

theorem updatesRecordedInto_drawTrace (c : Handle) (s : ExampleBase) (semaphore : Handle) :
    updatesRecordedInto c (drawTrace s semaphore) = [] := by
  by_cases hp : s.pendingUpdates = [] <;> simp [drawTrace, hp, updatesRecordedInto]

/-- Summary of one call of `drawCurrentCommandBuffer`: it returns, and the calls it made and the
fields it wrote are as listed. -/
theorem drawCurrentCommandBuffer_ok (ndebug : Bool) (signaled : Handle → Bool) (s : ExampleBase)
    (semaphore : Handle) :
    ∃ s', drawCurrentCommandBuffer ndebug signaled s semaphore = .ok s' ∧
      newEvents s s' =
        drawTrace s semaphore ++
          (if s.pendingUpdates = [] then []
           else flushTrace s.cmdPool (s.context.device.nextHandle + 1)
                  (s.context.device.nextHandle + 1) s.pendingUpdates) ++
          .recycle :: pollTrace signaled (frameRecycler s) ∧
      s'.pendingUpdates = [] ∧
      s'.semaphores = { s.semaphores with
        transferComplete :=
          if s.pendingUpdates = [] then nullHandle else s.context.device.nextHandle + 3 } ∧
      s'.context.recycler = (frameRecycler s).filter (fun en => !signaled en.1) ∧
      s'.context.dumpster = [] ∧
      s'.primaryCmdBuffers = s.primaryCmdBuffers ∧
      s'.currentBuffer = s.currentBuffer ∧
      s'.submitPipelineStages = s.submitPipelineStages := by
  refine ⟨_, drawCurrentCommandBuffer_eq ndebug signaled s semaphore, ?_, rfl, rfl, rfl, rfl,
    rfl, rfl, rfl⟩
  simp [newEvents, ExampleBase.trace]

theorem submissions_drawTrace (s : ExampleBase) (semaphore : Handle) :
    submissions (drawTrace s semaphore) =
      [(drawSubmitInfo s semaphore, s.swapChain.getSubmitFence)] := by
  by_cases hp : s.pendingUpdates = [] <;> simp [drawTrace, hp, submissions]

theorem submissions_flushTrace (cmdPool : Handle) (n : Nat) (tp : Handle)
    (us : List UpdateOperation) :
    submissions (flushTrace cmdPool n tp us) =
      [({ waitSemaphores := [tp], waitDstStageMask := [eAllCommands],
          signalSemaphores := [n + 2], commandBuffers := [some (n + 3)] }, n + 1)] := by
  simp [flushTrace, submissions_append, submissions, submissions_updates]

theorem filter_isCreation_drawTrace (s : ExampleBase) (semaphore : Handle) :
    (drawTrace s semaphore).filter Event.isCreation =
      if s.pendingUpdates = [] then []
      else [.createSemaphore (s.context.device.nextHandle + 1)] := by
  by_cases hp : s.pendingUpdates = [] <;> simp [drawTrace, hp, Event.isCreation]

theorem filter_isCreation_flushTrace (cmdPool : Handle) (n : Nat) (tp : Handle)
    (us : List UpdateOperation) :
    (flushTrace cmdPool n tp us).filter Event.isCreation =
      [.createFence (n + 1), .createSemaphore (n + 2),
       .allocateCommandBuffers cmdPool .ePrimary 1 [n + 3]] := by
  simp [flushTrace, List.filter_append, filter_isCreation_updates, Event.isCreation]

theorem submissions_frame (s s' : ExampleBase) (semaphore : Handle) (signaled : Handle → Bool)
    (hev : newEvents s s' =
        drawTrace s semaphore ++
          (if s.pendingUpdates = [] then []
           else flushTrace s.cmdPool (s.context.device.nextHandle + 1)
                  (s.context.device.nextHandle + 1) s.pendingUpdates) ++
          .recycle :: pollTrace signaled (frameRecycler s)) :
    submissions (newEvents s s') = frameSubmissions s semaphore := by
  rw [hev, submissions_append, submissions_append, submissions_drawTrace]
  by_cases hp : s.pendingUpdates = []
  · simp [hp, submissions, submissions_pollTrace, frameSubmissions]
  · simp [hp, submissions, submissions_pollTrace, submissions_flushTrace, add_assoc,
      frameSubmissions, transferSubmitInfo]

theorem populateSubCommandBuffersLoop_ok (f : Nat → Handle → List Nat) (cbs : List Handle)
    (idx : List Nat) (s : ExampleBase)
    (h : ∀ i ∈ idx, i < s.framebuffers.length ∧ i < cbs.length) :
    ∃ cur, populateSubCommandBuffersLoop f cbs idx s = .ok
      { s with
        currentBuffer := cur
        context := { s.context with
          device := { s.context.device with
            trace := s.context.device.trace ++
              idx.flatMap (secondaryRecording f s.renderPass s.framebuffers cbs) } } } := by
  induction idx generalizing s with
  | nil => exact ⟨s.currentBuffer, by simp [populateSubCommandBuffersLoop]⟩
  | cons i idx ih =>
    obtain ⟨h1, h2⟩ := h i (List.mem_cons_self _ _)
    have hrest : ∀ j ∈ idx, j < s.framebuffers.length ∧ j < cbs.length :=
      fun j hj => h j (List.mem_cons_of_mem _ hj)
    simp only [populateSubCommandBuffersLoop, List.getElem?_eq_getElem h1,
      List.getElem?_eq_getElem h2]
    obtain ⟨cur, hcur⟩ := ih
      (((({ s with currentBuffer := i }.emit (.cmdReset cbs[i] eReleaseResources)).emit
          (.cmdBegin cbs[i] (eRenderPassContinue ||| eSimultaneousUse)
            (some (s.renderPass, 0, s.framebuffers[i])))).emit
          (.recordFn i cbs[i] (f i cbs[i]))).emit (.cmdEnd cbs[i])) hrest
    refine ⟨cur, ?_⟩
    simp only [ExampleBase.emit] at hcur ⊢
    rw [hcur]
    simp [secondaryRecording, List.getElem?_eq_getElem h1, List.getElem?_eq_getElem h2]

theorem length_freshBuffers (n count : Nat) : (freshBuffers n count).length = count := by
  simp [freshBuffers]

theorem buildCommandBuffersBody_error (hook : Handle → List Nat) (i : Nat)
    (s : ExampleBase) (e : Error) (t : ExampleBase)
    (h : buildCommandBuffersBody hook i s = .fail e t) : e = .outOfRange := by
  simp only [buildCommandBuffersBody] at h
  split at h
  · injection h with h1 _
    exact h1.symm
  · split at h
    · injection h with h1 _
      exact h1.symm
    · split at h
      · split at h
        · injection h with h1 _
          exact h1.symm
        · cases h
      · cases h

theorem buildCommandBuffersLoop_error (hook : Handle → List Nat) (idx : List Nat)
    (s : ExampleBase) (e : Error) (t : ExampleBase)
    (h : buildCommandBuffersLoop hook idx s = .fail e t) : e = .outOfRange := by
  induction idx generalizing s with
  | nil => simp [buildCommandBuffersLoop] at h
  | cons i idx ih =>
    simp only [buildCommandBuffersLoop] at h
    cases hb : buildCommandBuffersBody hook i s with
    | ok u =>
      rw [hb] at h
      exact ih u h
    | fail e2 u =>
      rw [hb] at h
      simp only [Outcome.andThen] at h
      injection h with h1 _
      subst h1
      exact buildCommandBuffersBody_error hook i s e2 u hb

theorem flatMap_congr_mem {α β : Type} (l : List α) (f g : α → List β)
    (h : ∀ a ∈ l, f a = g a) : l.flatMap f = l.flatMap g := by
  induction l with
  | nil => rfl
  | cons a l ih =>
    rw [List.flatMap_cons, List.flatMap_cons, h a (List.mem_cons_self _ _),
      ih (fun b hb => h b (List.mem_cons_of_mem _ hb))]

theorem getD_freshBuffers (n count i : Nat) (h : i < count) :
    (freshBuffers n count).getD i nullHandle = n + 1 + i := by
  simp [freshBuffers, List.getD_eq_getElem?_getD, h]

theorem invocations_append (xs ys : List Event) :
    invocations (xs ++ ys) = invocations xs ++ invocations ys := by
  induction xs with
  | nil => rfl
  | cons e xs ih => cases e <;> simp [invocations, ih]

theorem invocations_flatMap_recording (idx : List Nat) (g : Nat → Handle)
    (a b d : Nat → Event) (r : Nat → List Nat)
    (ha : ∀ i, invocations [a i] = []) (hb : ∀ i, invocations [b i] = [])
    (hd : ∀ i, invocations [d i] = []) :
    invocations (idx.flatMap fun i => [a i, b i, .recordFn i (g i) (r i), d i]) =
      idx.map fun i => (i, g i) := by
  induction idx with
  | nil => rfl
  | cons i idx ih =>
    rw [List.flatMap_cons, invocations_append, ih]
    have e1 : [a i, b i, Event.recordFn i (g i) (r i), d i] =
        [a i] ++ ([b i] ++ ([Event.recordFn i (g i) (r i)] ++ [d i])) := rfl
    rw [e1, invocations_append, invocations_append, invocations_append, ha, hb, hd]
    simp [invocations]

theorem populateSubCommandBuffers_eq (s : ExampleBase) (cmdBuffers : List Handle)
    (f : Nat → Handle → List Nat) (hfb : s.framebuffers.length = s.swapChain.imageCount) :
    populateSubCommandBuffers s cmdBuffers f =
      (freshBuffers s.context.device.nextHandle s.swapChain.imageCount,
        .ok { s with
          currentBuffer := 0
          context := { s.context with
            dumpster := s.context.dumpster ++
              (if cmdBuffers = [] then []
               else [.freeCommandBuffers s.context.commandPool cmdBuffers])
            device :=
              { nextHandle := s.context.device.nextHandle + s.swapChain.imageCount
                trace := s.context.device.trace ++
                  ((if cmdBuffers = [] then [] else [.trashCommandBuffers cmdBuffers]) ++
                   .allocateCommandBuffers s.context.commandPool .eSecondary
                      s.swapChain.imageCount
                      (freshBuffers s.context.device.nextHandle s.swapChain.imageCount) ::
                   (List.range s.swapChain.imageCount).flatMap
                      (secondaryRecording f s.renderPass s.framebuffers
                        (freshBuffers s.context.device.nextHandle
                          s.swapChain.imageCount))) } } }) := by
  have key : ∀ s2 : ExampleBase, s2.framebuffers = s.framebuffers →
      s2.swapChain = s.swapChain → s2.renderPass = s.renderPass →
      ∀ cbs : List Handle, cbs.length = s.swapChain.imageCount →
      (populateSubCommandBuffersLoop f cbs (List.range s.swapChain.imageCount) s2).andThen
          (fun s3 => .ok { s3 with currentBuffer := 0 }) =
        .ok { s2 with
          currentBuffer := 0
          context := { s2.context with
            device := { s2.context.device with
              trace := s2.context.device.trace ++
                (List.range s.swapChain.imageCount).flatMap
                  (secondaryRecording f s.renderPass s.framebuffers cbs) } } } := by
    intro s2 h1 h2 h3 cbs hlen
    obtain ⟨cur, hcur⟩ := populateSubCommandBuffersLoop_ok f cbs
      (List.range s.swapChain.imageCount) s2 (by
        intro i hi
        rw [List.mem_range] at hi
        rw [h1, hfb, hlen]
        exact ⟨hi, hi⟩)
    rw [hcur, h1, h3]
    rfl
  by_cases hc : cmdBuffers = []
  · subst hc
    simp only [populateSubCommandBuffers, ExampleBase.allocateCommandBuffers, List.isEmpty_nil,
      Bool.not_true, Bool.false_eq_true, if_false]
    rw [key] <;> simp [freshBuffers]
  · have hne : cmdBuffers.isEmpty = false := isEmpty_eq_false_of_ne hc
    simp only [populateSubCommandBuffers, ExampleBase.allocateCommandBuffers, hne,
      Bool.not_false, if_true, ExampleBase.trashCommandBuffers, ExampleBase.emit,
      ExampleBase.dumpsterPushBack]
    rw [key] <;> simp [freshBuffers, hc]

theorem flatMap_secondaryRecording_fresh (f : Nat → Handle → List Nat) (renderPass : Handle)
    (framebuffers : List Handle) (n count : Nat) :
    (List.range count).flatMap (secondaryRecording f renderPass framebuffers
        (freshBuffers n count)) =
      (List.range count).flatMap (fun i =>
        [.cmdReset (n + 1 + i) eReleaseResources,
         .cmdBegin (n + 1 + i) (eRenderPassContinue ||| eSimultaneousUse)
            (some (renderPass, 0, framebuffers.getD i nullHandle)),
         .recordFn i (n + 1 + i) (f i (n + 1 + i)),
         .cmdEnd (n + 1 + i)]) := by
  apply flatMap_congr_mem
  intro i hi
  rw [List.mem_range] at hi
  simp only [secondaryRecording, getD_freshBuffers n count i hi]

/-- Summary of one call of `populateSubCommandBuffers` with enough framebuffers. -/
theorem populateSubCommandBuffers_ok (s : ExampleBase) (cmdBuffers : List Handle)
    (f : Nat → Handle → List Nat) (hfb : s.framebuffers.length = s.swapChain.imageCount) :
    ∃ s',
      populateSubCommandBuffers s cmdBuffers f =
        (freshBuffers s.context.device.nextHandle s.swapChain.imageCount, .ok s') ∧
      s'.context.dumpster = s.context.dumpster ++
        (if cmdBuffers = [] then []
         else [.freeCommandBuffers s.context.commandPool cmdBuffers]) ∧
      newEvents s s' =
        (if cmdBuffers = [] then [] else [.trashCommandBuffers cmdBuffers]) ++
        .allocateCommandBuffers s.context.commandPool .eSecondary s.swapChain.imageCount
            (freshBuffers s.context.device.nextHandle s.swapChain.imageCount) ::
          (List.range s.swapChain.imageCount).flatMap (fun i =>
            [.cmdReset (s.context.device.nextHandle + 1 + i) eReleaseResources,
             .cmdBegin (s.context.device.nextHandle + 1 + i)
                (eRenderPassContinue ||| eSimultaneousUse)
                (some (s.renderPass, 0, s.framebuffers.getD i nullHandle)),
             .recordFn i (s.context.device.nextHandle + 1 + i)
                (f i (s.context.device.nextHandle + 1 + i)),
             .cmdEnd (s.context.device.nextHandle + 1 + i)]) ∧
      s'.currentBuffer = 0 := by
  refine ⟨_, populateSubCommandBuffers_eq s cmdBuffers f hfb, rfl, ?_, rfl⟩
  rw [← flatMap_secondaryRecording_fresh]
  exact newEvents_of_trace_eq rfl

/-- One iteration of the loop of `buildCommandBuffers` writes only the trace and
`renderPassBeginInfo.framebuffer`, whether it completes or stops at an index out of range. -/
theorem buildCommandBuffersBody_preserves (hook : Handle → List Nat) (i : Nat)
    (s : ExampleBase) :
    (buildCommandBuffersBody hook i s).state.primaryCmdBuffers = s.primaryCmdBuffers ∧
    (buildCommandBuffersBody hook i s).state.drawCmdBuffers = s.drawCmdBuffers ∧
    (buildCommandBuffersBody hook i s).state.primaryCmdBuffersDirty
      = s.primaryCmdBuffersDirty ∧
    (buildCommandBuffersBody hook i s).state.context.dumpster = s.context.dumpster ∧
    (buildCommandBuffersBody hook i s).state.context.recycler = s.context.recycler ∧
    (buildCommandBuffersBody hook i s).state.context.device.nextHandle
      = s.context.device.nextHandle := by
  simp only [buildCommandBuffersBody]
  split
  · simp [Outcome.state]
  · split
    · simp [Outcome.state, ExampleBase.emit]
    · split
      · split <;> simp [Outcome.state, ExampleBase.emit]
      · simp [Outcome.state, ExampleBase.emit]

theorem state_andThen (o : Outcome) (k : ExampleBase → Outcome) :
    (o.andThen k).state = match o with
      | .ok u => (k u).state
      | .fail _ u => u := by
  cases o <;> rfl

/-- The loop of `buildCommandBuffers` writes only the trace and
`renderPassBeginInfo.framebuffer`, whether it completes or stops at an index out of range. -/
theorem buildCommandBuffersLoop_preserves (hook : Handle → List Nat) (idx : List Nat)
    (s : ExampleBase) :
    (buildCommandBuffersLoop hook idx s).state.primaryCmdBuffers = s.primaryCmdBuffers ∧
    (buildCommandBuffersLoop hook idx s).state.drawCmdBuffers = s.drawCmdBuffers ∧
    (buildCommandBuffersLoop hook idx s).state.primaryCmdBuffersDirty
      = s.primaryCmdBuffersDirty ∧
    (buildCommandBuffersLoop hook idx s).state.context.dumpster = s.context.dumpster ∧
    (buildCommandBuffersLoop hook idx s).state.context.recycler = s.context.recycler ∧
    (buildCommandBuffersLoop hook idx s).state.context.device.nextHandle
      = s.context.device.nextHandle := by
  induction idx generalizing s with
  | nil => simp [buildCommandBuffersLoop, Outcome.state]
  | cons i idx ih =>
    have hb := buildCommandBuffersBody_preserves hook i s
    simp only [buildCommandBuffersLoop]
    cases hbo : buildCommandBuffersBody hook i s with
    | ok u =>
      rw [hbo] at hb
      simp only [Outcome.state] at hb
      simp only [Outcome.andThen]
      obtain ⟨h1, h2, h3, h4, h5, h6⟩ := ih u
      obtain ⟨b1, b2, b3, b4, b5, b6⟩ := hb
      exact ⟨h1.trans b1, h2.trans b2, h3.trans b3, h4.trans b4, h5.trans b5, h6.trans b6⟩
    | fail e u =>
      rw [hbo] at hb
      exact hb

theorem buildCommandBuffersBody_ok (hook : Handle → List Nat) (i : Nat) (s : ExampleBase)
    (hp : i < s.primaryCmdBuffers.length) (hf : i < s.framebuffers.length)
    (hd : i < s.drawCmdBuffers.length) :
    buildCommandBuffersBody hook i s = .ok
      { s with
        renderPassBeginInfo :=
          { s.renderPassBeginInfo with framebuffer := s.framebuffers.getD i nullHandle }
        context := { s.context with
          device := { s.context.device with
            trace := s.context.device.trace ++
              primaryRecording hook s.renderPassBeginInfo.renderPass s.primaryCmdBuffers
                s.framebuffers s.drawCmdBuffers i } } } := by
  have hne : s.drawCmdBuffers.isEmpty = false := by
    cases h : s.drawCmdBuffers with
    | nil => rw [h] at hd; exact absurd hd (Nat.not_lt_zero _)
    | cons _ _ => rfl
  simp [buildCommandBuffersBody, List.getElem?_eq_getElem hp, List.getElem?_eq_getElem hf,
    List.getElem?_eq_getElem hd, ExampleBase.emit, hne, primaryRecording]

theorem buildCommandBuffersLoop_ok (hook : Handle → List Nat) (idx : List Nat) (s : ExampleBase)
    (h : ∀ i ∈ idx, i < s.primaryCmdBuffers.length ∧ i < s.framebuffers.length ∧
      i < s.drawCmdBuffers.length) :
    ∃ fb, buildCommandBuffersLoop hook idx s = .ok
      { s with
        renderPassBeginInfo := { s.renderPassBeginInfo with framebuffer := fb }
        context := { s.context with
          device := { s.context.device with
            trace := s.context.device.trace ++
              idx.flatMap (primaryRecording hook s.renderPassBeginInfo.renderPass
                s.primaryCmdBuffers s.framebuffers s.drawCmdBuffers) } } } := by
  induction idx generalizing s with
  | nil => exact ⟨s.renderPassBeginInfo.framebuffer, by simp [buildCommandBuffersLoop]⟩
  | cons i idx ih =>
    obtain ⟨h1, h2, h3⟩ := h i (List.mem_cons_self _ _)
    have hrest : ∀ j ∈ idx, j < s.primaryCmdBuffers.length ∧ j < s.framebuffers.length ∧
        j < s.drawCmdBuffers.length := fun j hj => h j (List.mem_cons_of_mem _ hj)
    simp only [buildCommandBuffersLoop, buildCommandBuffersBody_ok hook i s h1 h2 h3,
      Outcome.andThen]
    obtain ⟨fb, hfb⟩ := ih
      { s with
        renderPassBeginInfo :=
          { s.renderPassBeginInfo with framebuffer := s.framebuffers.getD i nullHandle }
        context := { s.context with
          device := { s.context.device with
            trace := s.context.device.trace ++
              primaryRecording hook s.renderPassBeginInfo.renderPass s.primaryCmdBuffers
                s.framebuffers s.drawCmdBuffers i } } } hrest
    refine ⟨fb, ?_⟩
    rw [hfb]
    simp

theorem buildCommandBuffersSetup_eq (s : ExampleBase) :
    buildCommandBuffersSetup s =
      { s with
        primaryCmdBuffers :=
          if s.primaryCmdBuffers = [] then
            freshBuffers s.context.device.nextHandle s.swapChain.imageCount
          else s.primaryCmdBuffers
        context := { s.context with
          dumpster := s.context.dumpster ++
            [.freeCommandBuffers s.context.commandPool s.primaryCmdBuffers]
          device :=
            { nextHandle := s.context.device.nextHandle +
                (if s.primaryCmdBuffers = [] then s.swapChain.imageCount else 0)
              trace := s.context.device.trace ++
                ([.trashCommandBuffers s.primaryCmdBuffers, .queueWaitIdle] ++
                 (if s.primaryCmdBuffers = [] then
                    [.allocateCommandBuffers s.cmdPool .ePrimary s.swapChain.imageCount
                      (freshBuffers s.context.device.nextHandle s.swapChain.imageCount)]
                  else [])) } } } := by
  by_cases hp : s.primaryCmdBuffers = []
  · simp [buildCommandBuffersSetup, ExampleBase.trashCommandBuffers, ExampleBase.emit,
      ExampleBase.dumpsterPushBack, ExampleBase.allocateCommandBuffers, hp, freshBuffers]
  · simp [buildCommandBuffersSetup, ExampleBase.trashCommandBuffers, ExampleBase.emit,
      ExampleBase.dumpsterPushBack, hp, isEmpty_eq_false_of_ne hp]

/-- Summary of one call of `buildCommandBuffers` when the three vectors have one entry per
swap-chain image and there is at least one image. -/
theorem buildCommandBuffers_ok (hook : Handle → List Nat) (s : ExampleBase)
    (hdraw : s.drawCmdBuffers.length = s.swapChain.imageCount)
    (hfb : s.framebuffers.length = s.swapChain.imageCount)
    (hprim : s.primaryCmdBuffers = [] ∨ s.primaryCmdBuffers.length = s.swapChain.imageCount)
    (hN : 0 < s.swapChain.imageCount) :
    ∃ s', buildCommandBuffers hook s = .ok s' ∧
      s'.primaryCmdBuffers =
        (if s.primaryCmdBuffers = [] then
            freshBuffers s.context.device.nextHandle s.swapChain.imageCount
          else s.primaryCmdBuffers) ∧
      newEvents s s' =
        [.trashCommandBuffers s.primaryCmdBuffers, .queueWaitIdle] ++
        (if s.primaryCmdBuffers = [] then
            [.allocateCommandBuffers s.cmdPool .ePrimary s.swapChain.imageCount
              (freshBuffers s.context.device.nextHandle s.swapChain.imageCount)]
          else []) ++
        (List.range s.swapChain.imageCount).flatMap
          (primaryRecording hook s.renderPassBeginInfo.renderPass
            (if s.primaryCmdBuffers = [] then
                freshBuffers s.context.device.nextHandle s.swapChain.imageCount
              else s.primaryCmdBuffers)
            s.framebuffers s.drawCmdBuffers) ∧
      s'.primaryCmdBuffersDirty = false ∧
      s'.drawCmdBuffers = s.drawCmdBuffers ∧
      s'.currentBuffer = s.currentBuffer := by
  have hne : s.drawCmdBuffers.isEmpty = false := by
    cases h : s.drawCmdBuffers with
    | nil => rw [h] at hdraw; simp at hdraw; omega
    | cons _ _ => rfl
  have hlen : (if s.primaryCmdBuffers = [] then
        freshBuffers s.context.device.nextHandle s.swapChain.imageCount
      else s.primaryCmdBuffers).length = s.swapChain.imageCount := by
    rcases hprim with h | h
    · simp [h, length_freshBuffers]
    · by_cases h0 : s.primaryCmdBuffers = []
      · simp [h0, length_freshBuffers]
      · simp [h0, h]
  obtain ⟨fb, hloop⟩ := buildCommandBuffersLoop_ok hook
    (List.range (buildCommandBuffersSetup s).swapChain.imageCount) (buildCommandBuffersSetup s)
    (by
      intro i hi
      rw [buildCommandBuffersSetup_eq] at hi ⊢
      rw [List.mem_range] at hi
      simp only at hi ⊢
      rw [hlen, hfb, hdraw]
      exact ⟨hi, hi, hi⟩)
  simp only [buildCommandBuffers, hne, Bool.false_eq_true, if_false, hloop, Outcome.andThen]
  refine ⟨_, rfl, ?_, ?_, rfl, ?_, ?_⟩
  · rw [buildCommandBuffersSetup_eq]
  · apply newEvents_of_trace_eq
    rw [buildCommandBuffersSetup_eq]
    simp [ExampleBase.trace]
  · rw [buildCommandBuffersSetup_eq]
  · rw [buildCommandBuffersSetup_eq]

theorem recycle_not_mem_pollTrace (signaled : Handle → Bool)
    (entries : List (Handle × List DisposalAction)) :
    Event.recycle ∉ pollTrace signaled entries := by
  induction entries with
  | nil => simp [pollTrace]
  | cons en entries ih =>
    obtain ⟨fence, body⟩ := en
    intro he
    simp only [pollTrace, List.mem_cons, List.mem_append] at he
    rcases he with h | h | h
    · cases h
    · split at h
      · simp only [List.mem_map] at h
        obtain ⟨a, _, ha⟩ := h
        cases a <;> cases ha
      · simp at h
    · exact ih h

theorem pollTrace_eq_flatMap (signaled : Handle → Bool)
    (entries : List (Handle × List DisposalAction)) :
    pollTrace signaled entries =
      entries.flatMap (fun en =>
        .getFenceStatus en.1 (signaled en.1) ::
          (if signaled en.1 then en.2.map DisposalAction.event else [])) := by
  induction entries with
  | nil => rfl
  | cons en entries ih =>
    obtain ⟨fence, body⟩ := en
    simp [pollTrace, ih]

theorem drawTrace_not_cleanup (s : ExampleBase) (semaphore : Handle) :
    ∀ e ∈ drawTrace s semaphore, e.isCleanup = false := by
  by_cases hp : s.pendingUpdates = [] <;> simp [drawTrace, hp, Event.isCleanup]

theorem flushTrace_not_cleanup (cmdPool : Handle) (n : Nat) (tp : Handle)
    (us : List UpdateOperation) :
    ∀ e ∈ flushTrace cmdPool n tp us, e.isCleanup = false := by
  intro e he
  simp only [flushTrace, List.mem_append, List.mem_map] at he
  rcases he with (h | ⟨u, _, h⟩) | h
  · revert e
    simp [Event.isCleanup]
  · subst h
    rfl
  · revert e
    simp [Event.isCleanup]

theorem frameEvents_before_poll (s : ExampleBase) (semaphore : Handle) (e : Event)
    (he : e ∈ drawTrace s semaphore ++
        (if s.pendingUpdates = [] then []
         else flushTrace s.cmdPool (s.context.device.nextHandle + 1)
                (s.context.device.nextHandle + 1) s.pendingUpdates)) :
    e.isCleanup = false := by
  rw [List.mem_append] at he
  rcases he with h | h
  · exact drawTrace_not_cleanup s semaphore e h
  · by_cases hp : s.pendingUpdates = []
    · simp [hp] at h
    · simp only [hp, if_false] at h
      exact flushTrace_not_cleanup _ _ _ _ e h

theorem destroyedSemaphores_append (xs ys : List Event) :
    destroyedSemaphores (xs ++ ys) = destroyedSemaphores xs ++ destroyedSemaphores ys := by
  induction xs with
  | nil => rfl
  | cons e xs ih => cases e <;> simp [destroyedSemaphores, ih]

theorem destroyedSemaphores_of_not_cleanup (xs : List Event)
    (h : ∀ e ∈ xs, e.isCleanup = false) : destroyedSemaphores xs = [] := by
  induction xs with
  | nil => rfl
  | cons e xs ih =>
    have hx := ih (fun e he => h e (List.mem_cons_of_mem _ he))
    have he := h e (List.mem_cons_self _ _)
    cases e <;> simp_all [destroyedSemaphores, Event.isCleanup]

theorem destroyedSemaphores_map_event (body : List DisposalAction) :
    destroyedSemaphores (body.map DisposalAction.event) = semaphoresOfActions body := by
  induction body with
  | nil => rfl
  | cons a body ih =>
    cases a <;> simp [destroyedSemaphores, semaphoresOfActions, DisposalAction.event, ih]

theorem semaphoresOfActions_append (xs ys : List DisposalAction) :
    semaphoresOfActions (xs ++ ys) = semaphoresOfActions xs ++ semaphoresOfActions ys := by
  induction xs with
  | nil => rfl
  | cons a xs ih => cases a <;> simp [semaphoresOfActions, ih]

theorem semaphoresOfEntries_append (xs ys : List (Handle × List DisposalAction)) :
    semaphoresOfEntries (xs ++ ys) = semaphoresOfEntries xs ++ semaphoresOfEntries ys := by
  induction xs with
  | nil => rfl
  | cons en xs ih => simp [semaphoresOfEntries, ih]

/-- A poll moves the semaphores of the signaled entries from the recycler to the trace and
leaves the others where they are. -/
theorem poll_perm (signaled : Handle → Bool) (entries : List (Handle × List DisposalAction)) :
    (destroyedSemaphores (pollTrace signaled entries) ++
      semaphoresOfEntries (entries.filter (fun en => !signaled en.1))).Perm
      (semaphoresOfEntries entries) := by
  induction entries with
  | nil => simp [pollTrace, destroyedSemaphores, semaphoresOfEntries]
  | cons en entries ih =>
    obtain ⟨fence, body⟩ := en
    by_cases hs : signaled fence = true
    · simp only [pollTrace, hs, if_true, destroyedSemaphores, destroyedSemaphores_append,
        destroyedSemaphores_map_event, List.filter_cons, Bool.not_true, Bool.false_eq_true,
        if_false, semaphoresOfEntries, List.append_assoc]
      exact List.Perm.append_left _ ih
    · have hs' : signaled fence = false := by simpa using hs
      simp only [pollTrace, hs', Bool.false_eq_true, if_false, destroyedSemaphores,
        List.nil_append, List.filter_cons, Bool.not_false, if_true, semaphoresOfEntries]
      exact (List.perm_append_comm_assoc _ _ _).trans (List.Perm.append_left _ ih)

theorem destroyedSemaphores_frame (s : ExampleBase) (semaphore : Handle)
    (signaled : Handle → Bool) :
    destroyedSemaphores
      (drawTrace s semaphore ++
        (if s.pendingUpdates = [] then []
         else flushTrace s.cmdPool (s.context.device.nextHandle + 1)
                (s.context.device.nextHandle + 1) s.pendingUpdates) ++
        .recycle :: pollTrace signaled (frameRecycler s)) =
      destroyedSemaphores (pollTrace signaled (frameRecycler s)) := by
  rw [destroyedSemaphores_append,
    destroyedSemaphores_of_not_cleanup _ (frameEvents_before_poll s semaphore)]
  rfl

theorem semaphoresOfEntries_frameRecycler (s : ExampleBase) :
    semaphoresOfEntries (frameRecycler s) =
      semaphoresOfEntries s.context.recycler ++ semaphoresOfActions s.context.dumpster ++
        (if s.semaphores.transferComplete = nullHandle then []
         else [s.semaphores.transferComplete]) ++
        (if s.pendingUpdates = [] then [] else [s.context.device.nextHandle + 1]) := by
  by_cases htc : s.semaphores.transferComplete = nullHandle <;>
  by_cases hp : s.pendingUpdates = [] <;>
  simp [frameRecycler, htc, hp, semaphoresOfEntries_append, semaphoresOfEntries,
    semaphoresOfActions_append, semaphoresOfActions]

/-- One call of `drawCurrentCommandBuffer` keeps every semaphore the state has destroyed or
owes for destruction, and adds the two semaphores of its flush, if any. -/
theorem semaphoresToDestroy_draw (ndebug : Bool) (signaled : Handle → Bool) (s : ExampleBase)
    (semaphore : Handle) :
    (semaphoresToDestroy (drawCurrentCommandBuffer ndebug signaled s semaphore).state).Perm
      (semaphoresToDestroy s ++
        (if s.pendingUpdates = [] then []
         else [s.context.device.nextHandle + 1, s.context.device.nextHandle + 3])) := by
  rw [drawCurrentCommandBuffer_eq]
  simp only [Outcome.state, semaphoresToDestroy]
  rw [destroyedSemaphores_append, destroyedSemaphores_frame]
  simp only [semaphoresOfActions, List.append_nil]
  have hpoll := poll_perm signaled (frameRecycler s)
  rw [semaphoresOfEntries_frameRecycler] at hpoll
  by_cases hp : s.pendingUpdates = []
  · simp only [hp, if_true, List.append_nil] at hpoll ⊢
    simp only [nullHandle, if_true, List.append_nil, List.append_assoc] at hpoll ⊢
    exact List.Perm.append_left _ hpoll
  · simp only [hp, if_false] at hpoll ⊢
    have hne : ¬ (s.context.device.nextHandle + 3 = nullHandle) := by simp [nullHandle]
    simp only [hne, if_false, List.append_assoc] at hpoll ⊢
    refine List.Perm.append_left _ ?_
    have := List.Perm.append_right [s.context.device.nextHandle + 3] hpoll
    simpa [List.append_assoc] using this

theorem not_fresh_of_le (a n : Nat) (h : a ≤ n) : a ≠ n + 1 ∧ a ≠ n + 3 := by
  constructor <;> omega

theorem le_add_of_le (a n k : Nat) (h : a ≤ n) : a ≤ n + k := by
  omega

theorem lt_of_lt_add (a n k : Nat) (h : n + k < a) : n < a := by
  omega

theorem not_le_and_lt (a n : Nat) (h1 : a ≤ n) (h2 : n < a) : False := by
  omega

theorem nextHandle_draw (ndebug : Bool) (signaled : Handle → Bool) (s : ExampleBase)
    (semaphore : Handle) :
    (drawCurrentCommandBuffer ndebug signaled s semaphore).state.context.device.nextHandle =
      s.context.device.nextHandle + (if s.pendingUpdates = [] then 0 else 4) := by
  rw [drawCurrentCommandBuffer_eq]
  rfl

theorem transferComplete_draw (ndebug : Bool) (signaled : Handle → Bool) (s : ExampleBase)
    (semaphore : Handle) :
    (drawCurrentCommandBuffer ndebug signaled s semaphore).state.semaphores.transferComplete =
      if s.pendingUpdates = [] then nullHandle else s.context.device.nextHandle + 3 := by
  rw [drawCurrentCommandBuffer_eq]
  rfl

theorem handlesConsistent_draw (ndebug : Bool) (signaled : Handle → Bool) (s : ExampleBase)
    (semaphore : Handle) (h : HandlesConsistent s) :
    HandlesConsistent (drawCurrentCommandBuffer ndebug signaled s semaphore).state := by
  obtain ⟨hnd, hle⟩ := h
  have hperm := semaphoresToDestroy_draw ndebug signaled s semaphore
  constructor
  · rw [hperm.nodup_iff]
    by_cases hp : s.pendingUpdates = []
    · simpa [hp] using hnd
    · simp only [hp, if_false]
      rw [List.nodup_append]
      refine ⟨hnd, by simp, ?_⟩
      intro a ha hb
      have hna := not_fresh_of_le a _ (hle a ha)
      simp only [List.mem_cons, List.mem_singleton, List.not_mem_nil, or_false] at hb
      rcases hb with hb | hb
      · exact hna.1 hb
      · exact hna.2 hb
  · intro a ha
    rw [hperm.mem_iff, List.mem_append] at ha
    rw [nextHandle_draw]
    rcases ha with ha | ha
    · exact le_add_of_le a _ _ (hle a ha)
    · by_cases hp : s.pendingUpdates = []
      · simp [hp] at ha
      · simp only [hp, if_false, List.mem_cons, List.mem_singleton, List.not_mem_nil,
          or_false] at ha ⊢
        rcases ha with ha | ha
        · rw [ha]
          exact Nat.add_le_add_left (by decide) _
        · rw [ha]
          exact Nat.add_le_add_left (by decide) _

theorem handlesConsistent_frameStep (ndebug : Bool) (inp : FrameInput) (s : ExampleBase)
    (h : HandlesConsistent s) : HandlesConsistent (frameStep ndebug inp s) :=
  handlesConsistent_draw ndebug inp.signaled (frameEntry inp s) inp.semaphore h

theorem handlesConsistent_runFrames (ndebug : Bool) (frames : List FrameInput) (s : ExampleBase)
    (h : HandlesConsistent s) : HandlesConsistent (runFrames ndebug frames s) := by
  induction frames generalizing s with
  | nil => exact h
  | cons inp frames ih => exact ih _ (handlesConsistent_frameStep ndebug inp s h)

theorem frameTransferWaits_eq (ndebug : Bool) (inp : FrameInput) (s : ExampleBase) :
    frameTransferWaits ndebug inp s =
      if s.semaphores.transferComplete = nullHandle then []
      else [s.semaphores.transferComplete] := by
  obtain ⟨s', hok, hev, -⟩ :=
    drawCurrentCommandBuffer_ok ndebug inp.signaled (frameEntry inp s) inp.semaphore
  have hstep : frameStep ndebug inp s = s' := by
    simp only [frameStep, hok, Outcome.state]
  unfold frameTransferWaits
  rw [hstep, submissions_frame (frameEntry inp s) s' inp.semaphore inp.signaled hev]
  by_cases htc : s.semaphores.transferComplete = nullHandle <;>
    simp [frameSubmissions, drawSubmitInfo, frameEntry, htc]

theorem transferComplete_le_of_consistent (s : ExampleBase) (h : HandlesConsistent s) :
    s.semaphores.transferComplete ≤ s.context.device.nextHandle := by
  by_cases htc : s.semaphores.transferComplete = nullHandle
  · rw [htc]
    exact Nat.zero_le _
  · exact h.2 _ (by simp [semaphoresToDestroy, htc])

theorem runTransferWaits_fresh (ndebug : Bool) (frames : List FrameInput) (s : ExampleBase) :
    ∀ h ∈ runTransferWaits ndebug frames s,
      h = s.semaphores.transferComplete ∨ s.context.device.nextHandle < h := by
  induction frames generalizing s with
  | nil => simp [runTransferWaits]
  | cons inp frames ih =>
    intro h hmem
    simp only [runTransferWaits, List.mem_append, frameTransferWaits_eq] at hmem
    rcases hmem with hm | hm
    · left
      by_cases htc : s.semaphores.transferComplete = nullHandle
      · simp [htc] at hm
      · simpa [htc] using hm
    · right
      have hn : (frameStep ndebug inp s).context.device.nextHandle =
          s.context.device.nextHandle +
            (if (frameEntry inp s).pendingUpdates = [] then 0 else 4) :=
        nextHandle_draw ndebug inp.signaled (frameEntry inp s) inp.semaphore
      have ht : (frameStep ndebug inp s).semaphores.transferComplete =
          if (frameEntry inp s).pendingUpdates = [] then nullHandle
          else s.context.device.nextHandle + 3 :=
        transferComplete_draw ndebug inp.signaled (frameEntry inp s) inp.semaphore
      rcases ih _ h hm with h1 | h1
      · rw [h1, ht]
        by_cases hp : (frameEntry inp s).pendingUpdates = []
        · exfalso
          -- a null handle is never waited on
          have hz : h = nullHandle := by rw [h1, ht]; simp [hp]
          clear ih h1
          revert hm
          rw [hz]
          intro hm
          have key : ∀ (fs : List FrameInput) (t : ExampleBase),
              nullHandle ∉ runTransferWaits ndebug fs t := by
            intro fs
            induction fs with
            | nil => intro t; simp [runTransferWaits]
            | cons i fs ihf =>
              intro t hc
              simp only [runTransferWaits, List.mem_append, frameTransferWaits_eq] at hc
              rcases hc with hc | hc
              · by_cases htc : t.semaphores.transferComplete = nullHandle
                · simp [htc] at hc
                · simp only [htc, if_false, List.mem_singleton] at hc
                  exact htc hc.symm
              · exact ihf _ hc
          exact key _ _ hm
        · simp only [hp, if_false]
          exact Nat.lt_add_of_pos_right (by decide)
      · rw [hn] at h1
        exact lt_of_lt_add _ _ _ h1

theorem runTransferWaits_nodup (ndebug : Bool) (frames : List FrameInput) (s : ExampleBase)
    (hc : HandlesConsistent s) : (runTransferWaits ndebug frames s).Nodup := by
  induction frames generalizing s with
  | nil => simp [runTransferWaits]
  | cons inp frames ih =>
    simp only [runTransferWaits, frameTransferWaits_eq]
    have hrest := ih _ (handlesConsistent_frameStep ndebug inp s hc)
    by_cases htc : s.semaphores.transferComplete = nullHandle
    · simpa [htc] using hrest
    · simp only [htc, if_false, List.singleton_append, List.nodup_cons]
      refine ⟨?_, hrest⟩
      intro hmem
      have hle := transferComplete_le_of_consistent s hc
      have hn : (frameStep ndebug inp s).context.device.nextHandle =
          s.context.device.nextHandle +
            (if (frameEntry inp s).pendingUpdates = [] then 0 else 4) :=
        nextHandle_draw ndebug inp.signaled (frameEntry inp s) inp.semaphore
      have ht : (frameStep ndebug inp s).semaphores.transferComplete =
          if (frameEntry inp s).pendingUpdates = [] then nullHandle
          else s.context.device.nextHandle + 3 :=
        transferComplete_draw ndebug inp.signaled (frameEntry inp s) inp.semaphore
      rcases runTransferWaits_fresh ndebug frames _ _ hmem with h1 | h1
      · rw [ht] at h1
        by_cases hp : (frameEntry inp s).pendingUpdates = []
        · simp only [hp, if_true] at h1
          exact htc h1
        · simp only [hp, if_false] at h1
          rw [h1] at hle
          exact not_le_and_lt _ _ hle (Nat.lt_add_of_pos_right (by decide))
      · rw [hn] at h1
        exact not_le_and_lt _ _ hle (lt_of_lt_add _ _ _ h1)

theorem buildCommandBuffersWith_false (hook : Handle → List Nat) (s : ExampleBase) :
    buildCommandBuffersWith false hook s = buildCommandBuffers hook s := by
  have h : buildCommandBuffersSetupWith false s = buildCommandBuffersSetup s := by
    simp [buildCommandBuffersSetupWith, buildCommandBuffersSetup, trashCommandBuffersByRef,
      ExampleBase.trashCommandBuffers, ExampleBase.emit, ExampleBase.dumpsterPushBack]
  simp only [buildCommandBuffersWith, buildCommandBuffers, h]

/-- One iteration of the loop of `buildCommandBuffers` only appends recording calls to the
trace: nothing is created and nothing is freed. -/
theorem buildCommandBuffersBody_trace (hook : Handle → List Nat) (i : Nat) (s : ExampleBase) :
    ∃ es, (buildCommandBuffersBody hook i s).state.context.device.trace =
        s.context.device.trace ++ es ∧
      ∀ e ∈ es, e.isCleanup = false ∧ e.isCreation = false := by
  simp only [buildCommandBuffersBody]
  split
  · exact ⟨[], by simp [Outcome.state], by simp⟩
  · split
    · exact ⟨_, by simp only [Outcome.state, ExampleBase.emit, List.append_assoc]; rfl,
        by simp [Event.isCleanup, Event.isCreation]⟩
    · split
      · split
        · exact ⟨_, by simp only [Outcome.state, ExampleBase.emit, List.append_assoc]; rfl,
            by simp [Event.isCleanup, Event.isCreation]⟩
        · exact ⟨_, by simp only [Outcome.state, ExampleBase.emit, List.append_assoc]; rfl,
            by simp [Event.isCleanup, Event.isCreation]⟩
      · exact ⟨_, by simp only [Outcome.state, ExampleBase.emit, List.append_assoc]; rfl,
          by simp [Event.isCleanup, Event.isCreation]⟩

theorem buildCommandBuffersLoop_trace (hook : Handle → List Nat) (idx : List Nat)
    (s : ExampleBase) :
    ∃ es, (buildCommandBuffersLoop hook idx s).state.context.device.trace =
        s.context.device.trace ++ es ∧
      ∀ e ∈ es, e.isCleanup = false ∧ e.isCreation = false := by
  induction idx generalizing s with
  | nil => exact ⟨[], by simp [buildCommandBuffersLoop, Outcome.state], by simp⟩
  | cons i idx ih =>
    obtain ⟨es1, h1, g1⟩ := buildCommandBuffersBody_trace hook i s
    simp only [buildCommandBuffersLoop]
    cases hb : buildCommandBuffersBody hook i s with
    | ok u =>
      rw [hb] at h1
      simp only [Outcome.state] at h1
      simp only [Outcome.andThen]
      obtain ⟨es2, h2, g2⟩ := ih u
      refine ⟨es1 ++ es2, by rw [h2, h1, List.append_assoc], ?_⟩
      intro e he
      rcases List.mem_append.mp he with h | h
      · exact g1 e h
      · exact g2 e h
    | fail err u =>
      rw [hb] at h1
      exact ⟨es1, h1, g1⟩

theorem buildCommandBuffersSetupWith_eq (emptiesArgument : Bool) (s : ExampleBase) :
    buildCommandBuffersSetupWith emptiesArgument s =
      { s with
        primaryCmdBuffers :=
          if (if emptiesArgument then [] else s.primaryCmdBuffers) = [] then
            freshBuffers s.context.device.nextHandle s.swapChain.imageCount
          else s.primaryCmdBuffers
        context := { s.context with
          dumpster := s.context.dumpster ++
            [.freeCommandBuffers s.context.commandPool s.primaryCmdBuffers]
          device :=
            { nextHandle := s.context.device.nextHandle +
                (if (if emptiesArgument then [] else s.primaryCmdBuffers) = [] then
                    s.swapChain.imageCount
                  else 0)
              trace := s.context.device.trace ++
                ([.trashCommandBuffers s.primaryCmdBuffers, .queueWaitIdle] ++
                 (if (if emptiesArgument then [] else s.primaryCmdBuffers) = [] then
                    [.allocateCommandBuffers s.cmdPool .ePrimary s.swapChain.imageCount
                      (freshBuffers s.context.device.nextHandle s.swapChain.imageCount)]
                  else [])) } } } := by
  cases emptiesArgument
  · by_cases hp : s.primaryCmdBuffers = []
    · simp [buildCommandBuffersSetupWith, trashCommandBuffersByRef,
        ExampleBase.trashCommandBuffers, ExampleBase.emit, ExampleBase.dumpsterPushBack,
        ExampleBase.allocateCommandBuffers, hp, freshBuffers]
    · simp [buildCommandBuffersSetupWith, trashCommandBuffersByRef,
        ExampleBase.trashCommandBuffers, ExampleBase.emit, ExampleBase.dumpsterPushBack, hp,
        isEmpty_eq_false_of_ne hp]
  · simp [buildCommandBuffersSetupWith, trashCommandBuffersByRef,
      ExampleBase.trashCommandBuffers, ExampleBase.emit, ExampleBase.dumpsterPushBack,
      ExampleBase.allocateCommandBuffers, freshBuffers]

/-- Summary of `buildCommandBuffers` with draw buffers present, for either effect of the
helper on its argument, whether the recording loop completes or stops. -/
theorem buildCommandBuffersWith_summary (emptiesArgument : Bool) (hook : Handle → List Nat)
    (s : ExampleBase) (hdraw : s.drawCmdBuffers ≠ []) :
    ∃ es,
      newEvents s (buildCommandBuffersWith emptiesArgument hook s).state =
        [.trashCommandBuffers s.primaryCmdBuffers, .queueWaitIdle] ++
        (if (if emptiesArgument then [] else s.primaryCmdBuffers) = [] then
            [.allocateCommandBuffers s.cmdPool .ePrimary s.swapChain.imageCount
              (freshBuffers s.context.device.nextHandle s.swapChain.imageCount)]
          else []) ++ es ∧
      (∀ e ∈ es, e.isCleanup = false ∧ e.isCreation = false) ∧
      (buildCommandBuffersWith emptiesArgument hook s).state.primaryCmdBuffers =
        (if (if emptiesArgument then [] else s.primaryCmdBuffers) = [] then
            freshBuffers s.context.device.nextHandle s.swapChain.imageCount
          else s.primaryCmdBuffers) ∧
      (buildCommandBuffersWith emptiesArgument hook s).state.context.dumpster =
        s.context.dumpster ++
          [.freeCommandBuffers s.context.commandPool s.primaryCmdBuffers] ∧
      (buildCommandBuffersWith emptiesArgument hook s).state.context.device.nextHandle =
        s.context.device.nextHandle +
          (if (if emptiesArgument then [] else s.primaryCmdBuffers) = [] then
              s.swapChain.imageCount
            else 0) := by
  have hd : s.drawCmdBuffers.isEmpty = false := isEmpty_eq_false_of_ne hdraw
  obtain ⟨h1, -, -, h4, -, h6⟩ := buildCommandBuffersLoop_preserves hook
    (List.range (buildCommandBuffersSetupWith emptiesArgument s).swapChain.imageCount)
    (buildCommandBuffersSetupWith emptiesArgument s)
  obtain ⟨es, htr, hes⟩ := buildCommandBuffersLoop_trace hook
    (List.range (buildCommandBuffersSetupWith emptiesArgument s).swapChain.imageCount)
    (buildCommandBuffersSetupWith emptiesArgument s)
  have hstate : ∀ o : Outcome,
      (o.andThen fun s4 => .ok { s4 with primaryCmdBuffersDirty := false }).state.context
        = o.state.context ∧
      (o.andThen fun s4 =>
          .ok { s4 with primaryCmdBuffersDirty := false }).state.primaryCmdBuffers
        = o.state.primaryCmdBuffers := by
    intro o
    cases o <;> exact ⟨rfl, rfl⟩
  simp only [buildCommandBuffersWith, hd, Bool.false_eq_true, if_false]
  obtain ⟨hctx, hprims⟩ := hstate (buildCommandBuffersLoop hook
    (List.range (buildCommandBuffersSetupWith emptiesArgument s).swapChain.imageCount)
    (buildCommandBuffersSetupWith emptiesArgument s))
  refine ⟨es, ?_, hes, ?_, ?_, ?_⟩
  · apply newEvents_of_trace_eq
    simp only [ExampleBase.trace]
    rw [hctx, htr, buildCommandBuffersSetupWith_eq]
    simp only [List.append_assoc]
  · rw [hprims, h1, buildCommandBuffersSetupWith_eq]
  · rw [hctx, h4, buildCommandBuffersSetupWith_eq]
  · rw [hctx, h6, buildCommandBuffersSetupWith_eq]

/-! ## Claims -/

/-- C1 (as amended).  In a build where `assert` is active (`NDEBUG` not defined), constructing
an `UpdateOperation` whose `sizeof(T)` or offset is not a multiple of 4 stops at an assertion:
no value is produced, and enqueueing it leaves the whole state, `pendingUpdates` included,
as it was.  In every build, when both are multiples of 4 the construction succeeds and stores
exactly the given buffer, `size = sizeof(T)`, the given offset and the address of the data,
offset 0 when the argument is omitted; and enqueueing appends that value at the back.
Compiled with `NDEBUG` the construction succeeds for every size and offset. -/
theorem C1_misaligned_update_asserts_in_debug_build (ndebug : Bool) (s : ExampleBase)
    (buffer : Handle) (sizeofT data offset : Nat) :
    (ndebug = false → (sizeofT % 4 ≠ 0 ∨ offset % 4 ≠ 0) →
      (∃ expr, UpdateOperation.construct ndebug buffer sizeofT data offset
          = .error (.assertion expr)) ∧
      (∃ expr, enqueueUpdate ndebug s buffer sizeofT data offset
          = .fail (.assertion expr) s)) ∧
    (sizeofT % 4 = 0 ∧ offset % 4 = 0 →
      UpdateOperation.construct ndebug buffer sizeofT data offset
        = .ok { buffer := buffer, size := sizeofT, offset := offset, data := data } ∧
      enqueueUpdate ndebug s buffer sizeofT data offset
        = .ok { s with pendingUpdates := s.pendingUpdates ++
                  [{ buffer := buffer, size := sizeofT, offset := offset, data := data }] }) ∧
    (sizeofT % 4 = 0 →
      UpdateOperation.constructDefaultOffset ndebug buffer sizeofT data
        = .ok { buffer := buffer, size := sizeofT, offset := 0, data := data }) ∧
    (ndebug = true →
      UpdateOperation.construct ndebug buffer sizeofT data offset
        = .ok { buffer := buffer, size := sizeofT, offset := offset, data := data }) := by
  refine ⟨?_, ?_, ?_, ?_⟩
  · intro hd hmis
    subst hd
    by_cases h1 : sizeofT % 4 = 0
    · have h2 : offset % 4 ≠ 0 := by
        rcases hmis with h | h
        · exact absurd h1 h
        · exact h
      have h3 : ¬ (0 = offset % 4) := fun h => h2 h.symm
      exact ⟨⟨"0 == (offset % 4)", by simp [UpdateOperation.construct, h1, h3]⟩,
        ⟨"0 == (offset % 4)", by simp [enqueueUpdate, UpdateOperation.construct, h1, h3]⟩⟩
    · have h3 : ¬ (0 = sizeofT % 4) := fun h => h1 h.symm
      exact ⟨⟨"0 == (sizeof(T) % 4)", by simp [UpdateOperation.construct, h3]⟩,
        ⟨"0 == (sizeof(T) % 4)", by simp [enqueueUpdate, UpdateOperation.construct, h3]⟩⟩
  · rintro ⟨h1, h2⟩
    constructor
    · simp [UpdateOperation.construct, h1, h2]
    · simp [enqueueUpdate, UpdateOperation.construct, h1, h2]
  · intro h1
    simp [UpdateOperation.constructDefaultOffset, UpdateOperation.construct, h1]
  · intro h1
    simp [UpdateOperation.construct, h1]

/-- C1, instance: in a build with assertions, a 6-byte payload at offset 0 and an 8-byte
payload at offset 2 are both rejected and the queue of `sampleState` is untouched; an 8-byte
payload at offset 16 is accepted in either build. -/
theorem C1_misaligned_update_asserts_in_debug_build_witness :
    (∃ expr, enqueueUpdate false sampleState 61 6 1000 0 = .fail (.assertion expr) sampleState) ∧
    (∃ expr, enqueueUpdate false sampleState 61 8 1000 2 = .fail (.assertion expr) sampleState) ∧
    UpdateOperation.construct true 61 8 1000 16
      = .ok { buffer := 61, size := 8, offset := 16, data := 1000 } ∧
    UpdateOperation.constructDefaultOffset false 61 8 1000
      = .ok { buffer := 61, size := 8, offset := 0, data := 1000 } :=
  ⟨((C1_misaligned_update_asserts_in_debug_build false sampleState 61 6 1000 0).1 rfl
      (Or.inl (by decide))).2,
   ((C1_misaligned_update_asserts_in_debug_build false sampleState 61 8 1000 2).1 rfl
      (Or.inr (by decide))).2,
   ((C1_misaligned_update_asserts_in_debug_build true sampleState 61 8 1000 16).2.1
      ⟨by decide, by decide⟩).1,
   (C1_misaligned_update_asserts_in_debug_build false sampleState 61 8 1000 0).2.2.1 (by decide)⟩

/-- C1, counterexample to the claim as written: compiled with `NDEBUG` the two `assert`s
vanish, so a 6-byte payload (size not a multiple of 4) at offset 2 (not a multiple of 4)
yields an `UpdateOperation`, and enqueueing it changes `pendingUpdates`. -/
theorem C1_release_build_accepts_misaligned_update :
    6 % 4 ≠ 0 ∧ 2 % 4 ≠ 0 ∧
    UpdateOperation.construct true 61 6 1000 2
      = .ok { buffer := 61, size := 6, offset := 2, data := 1000 } ∧
    (enqueueUpdate true sampleState 61 6 1000 2).state.pendingUpdates
      = sampleState.pendingUpdates ++ [{ buffer := 61, size := 6, offset := 2, data := 1000 }] ∧
    (enqueueUpdate true sampleState 61 6 1000 2).state.pendingUpdates
      ≠ sampleState.pendingUpdates :=
  ⟨by decide, by decide, rfl, rfl, by decide⟩

/-- C2.  For every state whose pending-update queue `[u1..uk]` is non-empty:
`executePendingTransfers`, called with the non-null transfer-pending semaphore its own
assertion demands (any argument when compiled with `NDEBUG`), returns normally with
`pendingUpdates` empty, and the calls it makes are exactly: create the fence, create the
semaphore, allocate one command buffer `cb`, `cb.begin`, then one `cb.updateBuffer(ui.buffer,
ui.offset, ui.size, ui.data)` per pending update in queue order, `cb.end`, and the submission
of `cb`.  So the updates recorded into `cb` are the queue itself, nothing is recorded into any
other command buffer, and executing `cb` changes device memory as applying `u1..uk` in
enqueue order does.  The same holds for the flush a call of `drawCurrentCommandBuffer`
performs, for any semaphore argument and any fence status. -/
theorem C2_pending_updates_recorded_in_enqueue_order (ndebug : Bool) (s : ExampleBase)
    (hne : s.pendingUpdates ≠ []) :
    (∀ tp : Handle, (ndebug = true ∨ tp ≠ nullHandle) →
      ∃ s' fence sem cb,
        executePendingTransfers ndebug s tp = .ok s' ∧
        s'.pendingUpdates = [] ∧
        newEvents s s' =
          [.createFence fence, .createSemaphore sem,
           .allocateCommandBuffers s.cmdPool .ePrimary 1 [cb],
           .cmdBegin cb eOneTimeSubmit none] ++
          s.pendingUpdates.map
            (fun u => Event.cmdUpdateBuffer cb u.buffer u.offset u.size u.data) ++
          [.cmdEnd cb,
           .queueSubmit
              { waitSemaphores := [tp], waitDstStageMask := [eAllCommands],
                signalSemaphores := [sem], commandBuffers := [some cb] } fence] ∧
        updatesRecordedInto cb (newEvents s s') = s.pendingUpdates ∧
        (∀ c, c ≠ cb → updatesRecordedInto c (newEvents s s') = []) ∧
        ∀ (host : Nat → Nat) (mem : BufferMemory),
          executeRecorded host cb mem (newEvents s s') =
            s.pendingUpdates.foldl (applyUpdate host) mem) ∧
    (∀ (signaled : Handle → Bool) (semaphore : Handle),
      ∃ s' cb,
        drawCurrentCommandBuffer ndebug signaled s semaphore = .ok s' ∧
        s'.pendingUpdates = [] ∧
        updatesRecordedInto cb (newEvents s s') = s.pendingUpdates ∧
        (∀ c, c ≠ cb → updatesRecordedInto c (newEvents s s') = []) ∧
        ∀ (host : Nat → Nat) (mem : BufferMemory),
          executeRecorded host cb mem (newEvents s s') =
            s.pendingUpdates.foldl (applyUpdate host) mem) := by
  constructor
  · intro tp hpre
    have hev : newEvents s
        { s with
          pendingUpdates := []
          semaphores := { s.semaphores with transferComplete := s.context.device.nextHandle + 2 }
          context := { s.context with
            device :=
              { nextHandle := s.context.device.nextHandle + 3
                trace := s.context.device.trace ++
                  flushTrace s.cmdPool s.context.device.nextHandle tp s.pendingUpdates }
            recycler := s.context.recycler ++
              [(s.context.device.nextHandle + 1,
                [.destroySemaphore tp,
                 .freeCommandBuffers s.cmdPool [s.context.device.nextHandle + 3]])] } }
        = flushTrace s.cmdPool s.context.device.nextHandle tp s.pendingUpdates := by
      simp [newEvents, ExampleBase.trace]
    refine ⟨_, s.context.device.nextHandle + 1, s.context.device.nextHandle + 2,
      s.context.device.nextHandle + 3, executePendingTransfers_flush ndebug s tp hne hpre,
      rfl, ?_, ?_, ?_, ?_⟩
    · rw [hev]; rfl
    · rw [hev, updatesRecordedInto_flushTrace]; simp
    · intro c hc
      rw [hev, updatesRecordedInto_flushTrace]; simp [hc]
    · intro host mem
      rw [executeRecorded_eq_foldl, hev, updatesRecordedInto_flushTrace]; simp
  · intro signaled semaphore
    obtain ⟨s', hok, hev, hpu, -⟩ := drawCurrentCommandBuffer_ok ndebug signaled s semaphore
    simp only [hne, if_false] at hev
    have hrec : ∀ c, updatesRecordedInto c (newEvents s s')
        = if c = s.context.device.nextHandle + 1 + 3 then s.pendingUpdates else [] := by
      intro c
      rw [hev, updatesRecordedInto_append, updatesRecordedInto_append,
        updatesRecordedInto_drawTrace, updatesRecordedInto_flushTrace]
      simp [updatesRecordedInto, updatesRecordedInto_pollTrace]
    refine ⟨s', s.context.device.nextHandle + 1 + 3, hok, hpu, ?_, ?_, ?_⟩
    · rw [hrec]; simp
    · intro c hc
      rw [hrec]; simp [hc]
    · intro host mem
      rw [executeRecorded_eq_foldl, hrec]; simp

/-- C2, instance: the two pending updates of `sampleState` are recorded, in order, into the one
command buffer the flush allocates, and the queue is empty afterwards. -/
theorem C2_pending_updates_recorded_in_enqueue_order_witness :
    sampleState.pendingUpdates ≠ [] ∧
    ∃ s' cb, executePendingTransfers false sampleState 7 = .ok s' ∧
      s'.pendingUpdates = [] ∧
      updatesRecordedInto cb (newEvents sampleState s') =
        [{ buffer := 61, size := 8, offset := 0, data := 1000 },
         { buffer := 62, size := 4, offset := 16, data := 2000 }] :=
  ⟨by decide,
   let ⟨s', _, _, cb, h1, h2, _, h4, _⟩ :=
     (C2_pending_updates_recorded_in_enqueue_order false sampleState (by decide)).1 7
       (Or.inr (by decide))
   ⟨s', cb, h1, h2, h4⟩⟩

/-- C3.  For every state, semaphore argument, build mode and fence status, one call of
`drawCurrentCommandBuffer` returns normally, and with `n` the last handle the device handed
out before the call:
* its queue submissions are the draw submission (the one carrying
  `primaryCmdBuffers[currentBuffer]`, against the submit fence), followed by exactly one
  transfer submission when `pendingUpdates` is non-empty on entry and by nothing when it is
  empty;
* the objects it creates are none when the queue is empty, and otherwise exactly the
  transfer-pending semaphore `n+1`, one transfer fence `n+2`, one transfer-complete semaphore
  `n+3` (stored in `semaphores.transferComplete`) and one transfer command buffer `n+4`,
  whatever the number of pending updates;
* on an empty queue `executePendingTransfers` returns the state it was given, for every
  argument: nothing created, nothing submitted, `semaphores.transferComplete`,
  `pendingUpdates` and the recycler unchanged. -/
theorem C3_one_draw_submission_and_flush_iff_pending (ndebug : Bool) (signaled : Handle → Bool)
    (s : ExampleBase) (semaphore : Handle) :
    ∃ s' drawInfo,
      drawCurrentCommandBuffer ndebug signaled s semaphore = .ok s' ∧
      drawInfo.commandBuffers = [s.primaryCmdBuffers[s.currentBuffer]?] ∧
      submissions (newEvents s s') =
        (drawInfo, s.swapChain.getSubmitFence) ::
          (if s.pendingUpdates = [] then []
           else [({ waitSemaphores := [s.context.device.nextHandle + 1]
                    waitDstStageMask := [eAllCommands]
                    signalSemaphores := [s.context.device.nextHandle + 3]
                    commandBuffers := [some (s.context.device.nextHandle + 4)] },
                  s.context.device.nextHandle + 2)]) ∧
      (newEvents s s').filter Event.isCreation =
        (if s.pendingUpdates = [] then []
         else [.createSemaphore (s.context.device.nextHandle + 1),
               .createFence (s.context.device.nextHandle + 2),
               .createSemaphore (s.context.device.nextHandle + 3),
               .allocateCommandBuffers s.cmdPool .ePrimary 1
                  [s.context.device.nextHandle + 4]]) ∧
      s'.semaphores.transferComplete =
        (if s.pendingUpdates = [] then nullHandle else s.context.device.nextHandle + 3) ∧
      (∀ tp : Handle, s.pendingUpdates = [] → executePendingTransfers ndebug s tp = .ok s) := by
  obtain ⟨s', hok, hev, -, hsem, -⟩ := drawCurrentCommandBuffer_ok ndebug signaled s semaphore
  refine ⟨s', drawSubmitInfo s semaphore, hok, rfl, ?_, ?_, ?_, ?_⟩
  · rw [submissions_frame s s' semaphore signaled hev]
    rfl
  · rw [hev, List.filter_append, List.filter_append, filter_isCreation_drawTrace]
    by_cases hp : s.pendingUpdates = []
    · simp [hp, Event.isCreation, filter_isCreation_pollTrace]
    · simp [hp, Event.isCreation, filter_isCreation_pollTrace, filter_isCreation_flushTrace,
        add_assoc]
  · rw [hsem]
  · intro tp hp
    exact executePendingTransfers_empty ndebug s tp hp

/-- C4.  Take a call of `drawCurrentCommandBuffer` (frame K) entered with a non-empty
`pendingUpdates`, and the next call (frame K+1), entered in any state `t` whose
`semaphores.transferComplete` is the one frame K left.  Then
(i) frame K submits twice, the draw submission first and the transfer submission second;
(ii) the draw submission signals `[renderComplete, tp]` and the transfer submission waits on
exactly `[tp]`;
(iii) the transfer submission signals exactly `[tc]`, and the wait list of frame K+1's draw
submission is its acquire (or caller) semaphore followed by exactly that `tc`. -/
theorem C4_draw_then_transfer_then_next_draw (ndebug : Bool)
    (signaledK signaledK1 : Handle → Bool) (s : ExampleBase) (semaphoreK semaphoreK1 : Handle)
    (hne : s.pendingUpdates ≠ []) :
    ∃ s1 drawK fenceK transferK transferFence tp tc,
      drawCurrentCommandBuffer ndebug signaledK s semaphoreK = .ok s1 ∧
      submissions (newEvents s s1) = [(drawK, fenceK), (transferK, transferFence)] ∧
      drawK.commandBuffers = [s.primaryCmdBuffers[s.currentBuffer]?] ∧
      drawK.signalSemaphores = [s.semaphores.renderComplete, tp] ∧
      transferK.waitSemaphores = [tp] ∧
      transferK.signalSemaphores = [tc] ∧
      ∀ t : ExampleBase, t.semaphores.transferComplete = s1.semaphores.transferComplete →
        ∃ s2 drawK1 rest,
          drawCurrentCommandBuffer ndebug signaledK1 t semaphoreK1 = .ok s2 ∧
          submissions (newEvents t s2) = (drawK1, t.swapChain.getSubmitFence) :: rest ∧
          drawK1.commandBuffers = [t.primaryCmdBuffers[t.currentBuffer]?] ∧
          drawK1.waitSemaphores =
            [if semaphoreK1 = nullHandle then t.semaphores.acquireComplete else semaphoreK1,
             tc] := by
  obtain ⟨s1, hok, hev, -, hsem, -⟩ := drawCurrentCommandBuffer_ok ndebug signaledK s semaphoreK
  simp only [hne, if_false] at hev hsem
  refine ⟨s1, drawSubmitInfo s semaphoreK, s.swapChain.getSubmitFence, transferSubmitInfo s,
    s.context.device.nextHandle + 2, s.context.device.nextHandle + 1,
    s.context.device.nextHandle + 3, hok, ?_, rfl, ?_, rfl, rfl, ?_⟩
  · rw [submissions_frame s s1 semaphoreK signaledK (by simpa [hne] using hev)]
    simp [frameSubmissions, hne]
  · simp [drawSubmitInfo, hne]
  · intro t ht
    obtain ⟨s2, hok2, hev2, -⟩ := drawCurrentCommandBuffer_ok ndebug signaledK1 t semaphoreK1
    refine ⟨s2, drawSubmitInfo t semaphoreK1, _, hok2,
      submissions_frame t s2 semaphoreK1 signaledK1 hev2, rfl, ?_⟩
    rw [hsem] at ht
    simp [drawSubmitInfo, ht, nullHandle]

/-- C4, instance: frame K on `sampleState` (two pending updates) followed directly by frame
K+1 on the state frame K returned. -/
theorem C4_draw_then_transfer_then_next_draw_witness :
    sampleState.pendingUpdates ≠ [] ∧
    ∃ s1 drawK fenceK transferK transferFence tp tc,
      drawCurrentCommandBuffer false (fun _ => false) sampleState nullHandle = .ok s1 ∧
      submissions (newEvents sampleState s1) = [(drawK, fenceK), (transferK, transferFence)] ∧
      drawK.signalSemaphores = [52, tp] ∧
      transferK.waitSemaphores = [tp] ∧
      transferK.signalSemaphores = [tc] ∧
      ∃ s2 drawK1 rest,
        drawCurrentCommandBuffer false (fun _ => true) s1 nullHandle = .ok s2 ∧
        submissions (newEvents s1 s2) = (drawK1, s1.swapChain.getSubmitFence) :: rest ∧
        drawK1.waitSemaphores = [s1.semaphores.acquireComplete, tc] :=
  ⟨by decide,
   let ⟨s1, drawK, fenceK, transferK, transferFence, tp, tc, h1, h2, _, h4, h5, h6, h7⟩ :=
     C4_draw_then_transfer_then_next_draw false (fun _ => false) (fun _ => true) sampleState
       nullHandle nullHandle (by decide)
   let ⟨s2, drawK1, rest, k1, k2, _, k4⟩ := h7 s1 rfl
   ⟨s1, drawK, fenceK, transferK, transferFence, tp, tc, h1, h2, h4, h5, h6,
    s2, drawK1, rest, k1, k2, k4⟩⟩

/-- C5.  In every state whose `submitPipelineStages` member still holds the value its
initialiser gives it (bottom-of-pipe; no function of the class assigns it, and this call leaves
it as it is), the draw submission of `drawCurrentCommandBuffer` (the first submission of the
call, against the submit fence) waits on: first `semaphores.acquireComplete` when the argument
is null and the argument otherwise, at the bottom-of-pipe stage; then the stored
`semaphores.transferComplete` at the transfer stage, present iff that handle is non-null on
entry.  The semaphore list and the stage list have the same length, 1 or 2, and the stage
list starts with the member's value in general. -/
theorem C5_draw_wait_list (ndebug : Bool) (signaled : Handle → Bool) (s : ExampleBase)
    (semaphore : Handle) (hstage : s.submitPipelineStages = eBottomOfPipe) :
    ∃ s' info rest,
      drawCurrentCommandBuffer ndebug signaled s semaphore = .ok s' ∧
      submissions (newEvents s s') = (info, s.swapChain.getSubmitFence) :: rest ∧
      info.waitSemaphores =
        (if semaphore = nullHandle then s.semaphores.acquireComplete else semaphore) ::
          (if s.semaphores.transferComplete = nullHandle then []
           else [s.semaphores.transferComplete]) ∧
      info.waitDstStageMask =
        eBottomOfPipe ::
          (if s.semaphores.transferComplete = nullHandle then [] else [eTransfer]) ∧
      info.waitDstStageMask.head? = some s.submitPipelineStages ∧
      info.waitSemaphores.length = info.waitDstStageMask.length ∧
      (info.waitSemaphores.length = 1 ∨ info.waitSemaphores.length = 2) ∧
      s'.submitPipelineStages = s.submitPipelineStages := by
  obtain ⟨s', hok, hev, -, -, -, -, -, -, hst⟩ :=
    drawCurrentCommandBuffer_ok ndebug signaled s semaphore
  refine ⟨s', drawSubmitInfo s semaphore, _, hok,
    submissions_frame s s' semaphore signaled hev, rfl, ?_, ?_, ?_, ?_, hst⟩
  · simp [drawSubmitInfo, hstage]
  · simp [drawSubmitInfo]
  · by_cases h : s.semaphores.transferComplete = nullHandle <;> simp [drawSubmitInfo, h]
  · by_cases h : s.semaphores.transferComplete = nullHandle <;> simp [drawSubmitInfo, h]

/-- C5, instance: `sampleState` with an outstanding transfer-complete semaphore 77 and a
caller-supplied semaphore 88 waits on `[88, 77]` at stages bottom-of-pipe and transfer. -/
theorem C5_draw_wait_list_witness :
    ∃ s' info rest,
      drawCurrentCommandBuffer false (fun _ => false)
        { sampleState with semaphores := { sampleState.semaphores with transferComplete := 77 } }
        88 = .ok s' ∧
      submissions (newEvents
        { sampleState with semaphores := { sampleState.semaphores with transferComplete := 77 } }
        s') = (info, 12) :: rest ∧
      info.waitSemaphores = [88, 77] ∧
      info.waitDstStageMask = [eBottomOfPipe, eTransfer] :=
  let ⟨s', info, rest, h1, h2, h3, h4, _⟩ :=
    C5_draw_wait_list false (fun _ => false)
      { sampleState with semaphores := { sampleState.semaphores with transferComplete := 77 } }
      88 rfl
  ⟨s', info, rest, h1, h2, h3, h4⟩

/-- C6.  In every call of `drawCurrentCommandBuffer` the signal list of the draw submission
starts with `semaphores.renderComplete`; it has a second element iff `pendingUpdates` is
non-empty (the queue at the point of the test is the queue on entry), and that element is the
semaphore `tp` created in this call by the `createSemaphore` that directly precedes the
submission.  The value handed to `executePendingTransfers` is that same `tp`, the null handle
when the queue is empty, and when a flush follows its submission waits on exactly `[tp]`. -/
theorem C6_draw_signal_list (ndebug : Bool) (signaled : Handle → Bool) (s : ExampleBase)
    (semaphore : Handle) :
    ∃ s' info tp later,
      drawCurrentCommandBuffer ndebug signaled s semaphore = .ok s' ∧
      newEvents s s' =
        [.getSubmitFence s.swapChain.getSubmitFence, .emptyDumpster s.swapChain.getSubmitFence]
          ++ (if s.pendingUpdates = [] then [] else [.createSemaphore tp])
          ++ [.queueSubmit info s.swapChain.getSubmitFence] ++ later ∧
      info.commandBuffers = [s.primaryCmdBuffers[s.currentBuffer]?] ∧
      info.signalSemaphores =
        s.semaphores.renderComplete :: (if s.pendingUpdates = [] then [] else [tp]) ∧
      (drawCurrentCommandBufferSubmit s semaphore).1.pendingUpdates = s.pendingUpdates ∧
      (drawCurrentCommandBufferSubmit s semaphore).2 =
        (if s.pendingUpdates = [] then nullHandle else tp) ∧
      drawCurrentCommandBuffer ndebug signaled s semaphore =
        (executePendingTransfers ndebug (drawCurrentCommandBufferSubmit s semaphore).1
            (drawCurrentCommandBufferSubmit s semaphore).2).andThen
          (fun s1 => .ok (s1.recycle signaled)) ∧
      (submissions later).map (fun p => p.1.waitSemaphores) =
        (if s.pendingUpdates = [] then [] else [[tp]]) := by
  obtain ⟨s', hok, hev, -⟩ := drawCurrentCommandBuffer_ok ndebug signaled s semaphore
  refine ⟨s', drawSubmitInfo s semaphore, s.context.device.nextHandle + 1,
    (if s.pendingUpdates = [] then []
       else flushTrace s.cmdPool (s.context.device.nextHandle + 1)
              (s.context.device.nextHandle + 1) s.pendingUpdates) ++
      .recycle :: pollTrace signaled (frameRecycler s),
    hok, ?_, rfl, rfl, ?_, ?_, rfl, ?_⟩
  · rw [hev]
    simp [drawTrace]
  · rw [drawCurrentCommandBufferSubmit_eq]
  · rw [drawCurrentCommandBufferSubmit_eq]
  · by_cases hp : s.pendingUpdates = []
    · simp [hp, submissions, submissions_pollTrace]
    · simp only [hp, if_false, submissions_append, submissions_flushTrace]
      simp [submissions, submissions_pollTrace]

/-- C7.  For every state with `currentBuffer < primaryCmdBuffers.size()`: the call starts by
asking the swap chain for its submit fence; the draw submission (the first submission of the
call) carries exactly one command buffer, `primaryCmdBuffers[currentBuffer]`, and is made
against that fence; the only other submission the call can make is the transfer submission,
which carries the one command buffer allocated by the flush of this call. -/
theorem C7_draw_submits_current_primary (ndebug : Bool) (signaled : Handle → Bool)
    (s : ExampleBase) (semaphore : Handle)
    (hcur : s.currentBuffer < s.primaryCmdBuffers.length) :
    ∃ s' fence info later,
      drawCurrentCommandBuffer ndebug signaled s semaphore = .ok s' ∧
      fence = s.swapChain.getSubmitFence ∧
      newEvents s s' = .getSubmitFence fence :: later ∧
      submissions (newEvents s s') =
        (info, fence) ::
          (if s.pendingUpdates = [] then []
           else [(transferSubmitInfo s, s.context.device.nextHandle + 2)]) ∧
      info.commandBuffers = [some (s.primaryCmdBuffers.get ⟨s.currentBuffer, hcur⟩)] ∧
      (s.pendingUpdates ≠ [] →
        (transferSubmitInfo s).commandBuffers = [some (s.context.device.nextHandle + 4)] ∧
        .allocateCommandBuffers s.cmdPool .ePrimary 1 [s.context.device.nextHandle + 4]
          ∈ newEvents s s') ∧
      s'.primaryCmdBuffers = s.primaryCmdBuffers := by
  obtain ⟨s', hok, hev, -, -, -, -, hprim, -⟩ :=
    drawCurrentCommandBuffer_ok ndebug signaled s semaphore
  refine ⟨s', s.swapChain.getSubmitFence, drawSubmitInfo s semaphore, (newEvents s s').tail,
    hok, rfl, ?_, submissions_frame s s' semaphore signaled hev, ?_, ?_, hprim⟩
  · rw [hev]
    simp [drawTrace]
  · simp [drawSubmitInfo, List.getElem?_eq_getElem hcur]
  · intro hne
    refine ⟨rfl, ?_⟩
    rw [hev]
    simp [hne, flushTrace, add_assoc]

/-- C7, instance: in `sampleState` image 1 is current, so the draw submission carries the
primary buffer 22 against submit fence 12. -/
theorem C7_draw_submits_current_primary_witness :
    sampleState.currentBuffer < sampleState.primaryCmdBuffers.length ∧
    ∃ s' info rest,
      drawCurrentCommandBuffer false (fun _ => false) sampleState nullHandle = .ok s' ∧
      submissions (newEvents sampleState s') = (info, 12) :: rest ∧
      info.commandBuffers = [some 22] :=
  ⟨by decide,
   let ⟨s', _, info, _, h1, h2, _, h4, h5, _⟩ :=
     C7_draw_submits_current_primary false (fun _ => false) sampleState nullHandle (by decide)
   ⟨s', info, _, h1, h2 ▸ h4, h5⟩⟩

/-- C8.  When `drawCmdBuffers` is empty, `buildCommandBuffers` throws the `runtime_error`
"Draw command buffers have not been populated." and the state at the throw is the state on
entry: no call has been made (no `trashCommandBuffers`, no `waitIdle`, no allocation, no
recording), the disposal queue, `primaryCmdBuffers` and `primaryCmdBuffersDirty` are as they
were.  In any state with a non-empty `drawCmdBuffers` the function never fails with a
`runtime_error`. -/
theorem C8_build_requires_draw_buffers (hook : Handle → List Nat) (s : ExampleBase)
    (hempty : s.drawCmdBuffers = []) :
    buildCommandBuffers hook s =
      .fail (.runtimeError "Draw command buffers have not been populated.") s ∧
    newEvents s (buildCommandBuffers hook s).state = [] ∧
    (buildCommandBuffers hook s).state.context.dumpster = s.context.dumpster ∧
    (buildCommandBuffers hook s).state.context.device.nextHandle
      = s.context.device.nextHandle ∧
    (buildCommandBuffers hook s).state.primaryCmdBuffers = s.primaryCmdBuffers ∧
    (buildCommandBuffers hook s).state.primaryCmdBuffersDirty = s.primaryCmdBuffersDirty ∧
    (∀ t : ExampleBase, t.drawCmdBuffers ≠ [] →
      ∀ msg t', buildCommandBuffers hook t ≠ .fail (.runtimeError msg) t') := by
  have h : buildCommandBuffers hook s =
      .fail (.runtimeError "Draw command buffers have not been populated.") s := by
    simp [buildCommandBuffers, hempty]
  refine ⟨h, ?_, ?_, ?_, ?_, ?_, ?_⟩
  · rw [h]; simp [Outcome.state, newEvents]
  · rw [h]; rfl
  · rw [h]; rfl
  · rw [h]; rfl
  · rw [h]; rfl
  · intro t ht msg t' hc
    have hne : t.drawCmdBuffers.isEmpty = false := isEmpty_eq_false_of_ne ht
    simp only [buildCommandBuffers, hne, Bool.false_eq_true, if_false] at hc
    generalize hloop : buildCommandBuffersLoop hook _ _ = o at hc
    cases o with
    | ok u => simp [Outcome.andThen] at hc
    | fail e u =>
      simp only [Outcome.andThen] at hc
      have := buildCommandBuffersLoop_error hook _ _ e u hloop
      subst this
      injection hc with h1 _
      cases h1

/-- C8, instance: `sampleState` with its draw buffers removed. -/
theorem C8_build_requires_draw_buffers_witness :
    buildCommandBuffers (fun _ => []) { sampleState with drawCmdBuffers := [] } =
      .fail (.runtimeError "Draw command buffers have not been populated.")
        { sampleState with drawCmdBuffers := [] } :=
  (C8_build_requires_draw_buffers (fun _ => []) { sampleState with drawCmdBuffers := [] }
    rfl).1

/-- C9.  For every state with `N = swapChain.imageCount` framebuffers, with `n` the last handle
the device handed out: `populateSubCommandBuffers(cmdBuffers, f)` returns normally;
`cmdBuffers` becomes the `N` freshly allocated secondary buffers `n+1 .. n+N`; the prior
contents go to the disposal queue iff they were non-empty, and no `freeCommandBuffers` call is
made; after the allocation the calls are, for `i = 0 .. N-1` in order, reset, begin with the
inheritance framebuffer `framebuffers[i]`, `f` on buffer `n+1+i`, end; so `f` is invoked exactly
`N` times, once per new buffer in index order.  `updateDrawCommandBuffers` does this on
`drawCmdBuffers` and then sets `primaryCmdBuffersDirty`. -/
theorem C9_populate_sub_command_buffers (s : ExampleBase) (cmdBuffers : List Handle)
    (f : Nat → Handle → List Nat) (hfb : s.framebuffers.length = s.swapChain.imageCount) :
    ∃ s',
      populateSubCommandBuffers s cmdBuffers f =
        ((List.range s.swapChain.imageCount).map (fun i => s.context.device.nextHandle + 1 + i),
          .ok s') ∧
      s'.context.dumpster = s.context.dumpster ++
        (if cmdBuffers = [] then []
         else [.freeCommandBuffers s.context.commandPool cmdBuffers]) ∧
      newEvents s s' =
        (if cmdBuffers = [] then [] else [.trashCommandBuffers cmdBuffers]) ++
        .allocateCommandBuffers s.context.commandPool .eSecondary s.swapChain.imageCount
            ((List.range s.swapChain.imageCount).map
              (fun i => s.context.device.nextHandle + 1 + i)) ::
          (List.range s.swapChain.imageCount).flatMap (fun i =>
            [.cmdReset (s.context.device.nextHandle + 1 + i) eReleaseResources,
             .cmdBegin (s.context.device.nextHandle + 1 + i)
                (eRenderPassContinue ||| eSimultaneousUse)
                (some (s.renderPass, 0, s.framebuffers.getD i nullHandle)),
             .recordFn i (s.context.device.nextHandle + 1 + i)
                (f i (s.context.device.nextHandle + 1 + i)),
             .cmdEnd (s.context.device.nextHandle + 1 + i)]) ∧
      invocations (newEvents s s') =
        (List.range s.swapChain.imageCount).map
          (fun i => (i, s.context.device.nextHandle + 1 + i)) ∧
      (∀ pool buffers, Event.freeCommandBuffers pool buffers ∉ newEvents s s') ∧
      ∃ s'', updateDrawCommandBuffers f { s with drawCmdBuffers := cmdBuffers } = .ok s'' ∧
        s''.drawCmdBuffers =
          (List.range s.swapChain.imageCount).map
            (fun i => s.context.device.nextHandle + 1 + i) ∧
        s''.primaryCmdBuffersDirty = true := by
  obtain ⟨s', hpop, hdump, hev, -⟩ := populateSubCommandBuffers_ok s cmdBuffers f hfb
  obtain ⟨u, hpop2, -⟩ :=
    populateSubCommandBuffers_ok { s with drawCmdBuffers := cmdBuffers } cmdBuffers f hfb
  refine ⟨s', hpop, hdump, hev, ?_, ?_, ?_⟩
  · rw [hev, invocations_append]
    have h0 : invocations
        (if cmdBuffers = [] then [] else [Event.trashCommandBuffers cmdBuffers]) = [] := by
      by_cases hc : cmdBuffers = [] <;> simp [hc, invocations]
    rw [h0, List.nil_append]
    simp only [invocations]
    exact invocations_flatMap_recording _ _ _ _ _ _ (fun _ => rfl) (fun _ => rfl)
      (fun _ => rfl)
  · intro pool buffers hmem
    rw [hev] at hmem
    by_cases hc : cmdBuffers = [] <;> simp [hc, List.mem_flatMap] at hmem
  · have hu : updateDrawCommandBuffers f { s with drawCmdBuffers := cmdBuffers } =
        .ok { u with
              drawCmdBuffers := freshBuffers s.context.device.nextHandle s.swapChain.imageCount
              primaryCmdBuffersDirty := true } := by
      simp only [updateDrawCommandBuffers]
      rw [hpop2]
    exact ⟨_, hu, rfl, rfl⟩

/-- C9, instance: rebuilding the three draw buffers of `sampleState`. -/
theorem C9_populate_sub_command_buffers_witness :
    sampleState.framebuffers.length = sampleState.swapChain.imageCount ∧
    ∃ s',
      populateSubCommandBuffers sampleState [31, 32, 33] (fun _ _ => []) =
        ([101, 102, 103], .ok s') ∧
      s'.context.dumpster = [.freeCommandBuffers 5 [31, 32, 33]] ∧
      invocations (newEvents sampleState s') = [(0, 101), (1, 102), (2, 103)] :=
  ⟨rfl,
   let ⟨s', h1, h2, _, h4, _⟩ :=
     C9_populate_sub_command_buffers sampleState [31, 32, 33] (fun _ _ => []) rfl
   ⟨s', h1, h2, h4⟩⟩

/-- C10 (as amended).  On a rebuild where draw buffers and primary buffers both exist on entry,
the first call `buildCommandBuffers` makes is `context.trashCommandBuffers(primaryCmdBuffers)`
(line 120), followed by the queue idle-wait: the existing primary handles are routed to the
disposal queue, and no `freeCommandBuffers` call is made.  Primaries are allocated exactly
when the vector is empty at the test of line 127, which comes after that call.  So if the
helper leaves the vector as it is, nothing is allocated and `primaryCmdBuffers` holds the same
handles after the call; if the helper empties the vector, `N` fresh primaries are allocated
and replace them.  When `primaryCmdBuffers` is empty on entry, `N` primaries are allocated in
either case.  (All of this holds whether the recording loop completes or stops.) -/
theorem C10_rebuild_routes_primaries_to_disposal (emptiesArgument : Bool)
    (hook : Handle → List Nat) (s : ExampleBase)
    (hdraw : s.drawCmdBuffers ≠ []) (hprim : s.primaryCmdBuffers ≠ []) :
    ∃ rest pool,
      newEvents s (buildCommandBuffersWith emptiesArgument hook s).state =
        .trashCommandBuffers s.primaryCmdBuffers :: .queueWaitIdle :: rest ∧
      (∀ p buffers, Event.freeCommandBuffers p buffers ∉ rest) ∧
      (buildCommandBuffersWith emptiesArgument hook s).state.context.dumpster =
        s.context.dumpster ++ [.freeCommandBuffers pool s.primaryCmdBuffers] ∧
      (emptiesArgument = false →
        (buildCommandBuffersWith emptiesArgument hook s).state.primaryCmdBuffers
          = s.primaryCmdBuffers ∧
        (buildCommandBuffersWith emptiesArgument hook s).state.context.device.nextHandle
          = s.context.device.nextHandle ∧
        rest.filter Event.isCreation = []) ∧
      (emptiesArgument = true →
        (buildCommandBuffersWith emptiesArgument hook s).state.primaryCmdBuffers
          = (List.range s.swapChain.imageCount).map
              (fun k => s.context.device.nextHandle + 1 + k) ∧
        (buildCommandBuffersWith emptiesArgument hook s).state.context.device.nextHandle
          = s.context.device.nextHandle + s.swapChain.imageCount ∧
        rest.filter Event.isCreation =
          [.allocateCommandBuffers s.cmdPool .ePrimary s.swapChain.imageCount
            ((List.range s.swapChain.imageCount).map
              (fun k => s.context.device.nextHandle + 1 + k))]) ∧
      buildCommandBuffersWith false hook s = buildCommandBuffers hook s ∧
      ∀ t : ExampleBase, t.drawCmdBuffers ≠ [] → t.primaryCmdBuffers = [] →
        (newEvents t (buildCommandBuffersWith emptiesArgument hook t).state).filter
            Event.isCreation =
          [.allocateCommandBuffers t.cmdPool .ePrimary t.swapChain.imageCount
            ((List.range t.swapChain.imageCount).map
              (fun k => t.context.device.nextHandle + 1 + k))] := by
  obtain ⟨es, hev, hes, hp, hd, hn⟩ :=
    buildCommandBuffersWith_summary emptiesArgument hook s hdraw
  have hfil : ∀ xs : List Event, (∀ e ∈ xs, e.isCleanup = false ∧ e.isCreation = false) →
      xs.filter Event.isCreation = [] := by
    intro xs hxs
    rw [List.filter_eq_nil_iff]
    intro e he
    simp [(hxs e he).2]
  refine ⟨(if (if emptiesArgument then [] else s.primaryCmdBuffers) = [] then
        [.allocateCommandBuffers s.cmdPool .ePrimary s.swapChain.imageCount
          (freshBuffers s.context.device.nextHandle s.swapChain.imageCount)]
      else []) ++ es, s.context.commandPool, ?_, ?_, hd, ?_, ?_,
    buildCommandBuffersWith_false hook s, ?_⟩
  · rw [hev]
    simp
  · intro p buffers hmem
    rcases List.mem_append.mp hmem with h | h
    · split at h
      · simp at h
      · simp at h
    · have := (hes _ h).1
      simp [Event.isCleanup] at this
  · intro he
    subst he
    simp only [Bool.false_eq_true, if_false, hprim] at hp hn ⊢
    exact ⟨hp, hn, by simpa using hfil es hes⟩
  · intro he
    subst he
    simp only [if_true] at hp hn ⊢
    refine ⟨hp, hn, ?_⟩
    rw [List.filter_append, hfil es hes]
    simp [Event.isCreation, freshBuffers]
  · intro t htd htp
    obtain ⟨es2, hev2, hes2, -⟩ :=
      buildCommandBuffersWith_summary emptiesArgument hook t htd
    rw [hev2, List.filter_append, hfil es2 hes2]
    cases emptiesArgument <;> simp [htp, Event.isCreation, freshBuffers]

/-- C10, instance: rebuilding `sampleState`, whose primaries are 21, 22, 23.  If the helper
leaves the vector alone the primaries stay 21, 22, 23; if it empties the vector they become
the fresh 101, 102, 103; in both cases 21, 22, 23 are on the disposal queue. -/
theorem C10_rebuild_routes_primaries_to_disposal_witness :
    (buildCommandBuffersWith false (fun _ => []) sampleState).state.primaryCmdBuffers
      = [21, 22, 23] ∧
    (buildCommandBuffersWith true (fun _ => []) sampleState).state.primaryCmdBuffers
      = [101, 102, 103] ∧
    (∃ pool, (buildCommandBuffersWith false (fun _ => []) sampleState).state.context.dumpster
      = [.freeCommandBuffers pool [21, 22, 23]]) ∧
    (∃ pool, (buildCommandBuffersWith true (fun _ => []) sampleState).state.context.dumpster
      = [.freeCommandBuffers pool [21, 22, 23]]) :=
  let ⟨_, pool0, _, _, d0, f0, _, _, _⟩ :=
    C10_rebuild_routes_primaries_to_disposal false (fun _ => []) sampleState
      (by decide) (by decide)
  let ⟨_, pool1, _, _, d1, _, t1, _, _⟩ :=
    C10_rebuild_routes_primaries_to_disposal true (fun _ => []) sampleState
      (by decide) (by decide)
  ⟨(f0 rfl).1, (t1 rfl).1, ⟨pool0, d0⟩, ⟨pool1, d1⟩⟩

/-- C10, counterexample to the claim as written: rebuilding `sampleState`, whose primaries
21, 22, 23 exist on entry.  The first call made is `trashCommandBuffers [21, 22, 23]` and the
disposal queue, empty on entry, then holds a free action for exactly those handles, whichever
way the helper treats the vector it is given. -/
theorem C10_existing_primaries_are_trashed :
    sampleState.primaryCmdBuffers = [21, 22, 23] ∧
    sampleState.context.dumpster = [] ∧
    (newEvents sampleState (buildCommandBuffers (fun _ => []) sampleState).state).head?
      = some (.trashCommandBuffers [21, 22, 23]) ∧
    (buildCommandBuffers (fun _ => []) sampleState).state.context.dumpster
      = [.freeCommandBuffers 5 [21, 22, 23]] ∧
    (newEvents sampleState
        (buildCommandBuffersWith true (fun _ => []) sampleState).state).head?
      = some (.trashCommandBuffers [21, 22, 23]) ∧
    (buildCommandBuffersWith true (fun _ => []) sampleState).state.context.dumpster
      = [.freeCommandBuffers 5 [21, 22, 23]] :=
  ⟨rfl, rfl, rfl, rfl, rfl, rfl⟩

/-- C11.  For every state in which `drawCmdBuffers` and `framebuffers` have length
`N = swapChain.imageCount` and `primaryCmdBuffers` is either empty (then `N` primaries are
allocated) or of length `N`: no index access of `buildCommandBuffers` is out of range; with at
least one image the call returns normally; and the calls it makes are `trashCommandBuffers`,
the queue idle-wait, the allocation if the vector was empty, and then for `i = 0 .. N-1` in
order exactly: reset, begin, the hook `updatePrimaryCommandBuffer`, begin render pass on
`framebuffers[i]` in secondary-command-buffer mode, execute `drawCmdBuffers[i]`, end render
pass, end, all on primary `i`.  (With `N = 0` the draw buffers are missing and nothing is
recorded.) -/
theorem C11_primary_recording_sequence (hook : Handle → List Nat) (s : ExampleBase)
    (hdraw : s.drawCmdBuffers.length = s.swapChain.imageCount)
    (hfb : s.framebuffers.length = s.swapChain.imageCount)
    (hprim : s.primaryCmdBuffers = [] ∨
      s.primaryCmdBuffers.length = s.swapChain.imageCount) :
    ∃ primaries : List Handle,
      primaries =
        (if s.primaryCmdBuffers = [] then
            (List.range s.swapChain.imageCount).map
              (fun k => s.context.device.nextHandle + 1 + k)
          else s.primaryCmdBuffers) ∧
      primaries.length = s.swapChain.imageCount ∧
      (∀ t, buildCommandBuffers hook s ≠ .fail .outOfRange t) ∧
      (0 < s.swapChain.imageCount →
        ∃ s', buildCommandBuffers hook s = .ok s' ∧ s'.primaryCmdBuffers = primaries) ∧
      newEvents s (buildCommandBuffers hook s).state =
        if s.swapChain.imageCount = 0 then []
        else
          [.trashCommandBuffers s.primaryCmdBuffers, .queueWaitIdle] ++
          (if s.primaryCmdBuffers = [] then
              [.allocateCommandBuffers s.cmdPool .ePrimary s.swapChain.imageCount primaries]
            else []) ++
          (List.range s.swapChain.imageCount).flatMap (fun i =>
            [.cmdReset (primaries.getD i nullHandle) eReleaseResources,
             .cmdBegin (primaries.getD i nullHandle) eSimultaneousUse none,
             .updatePrimaryCommandBuffer (primaries.getD i nullHandle)
                (hook (primaries.getD i nullHandle)),
             .cmdBeginRenderPass (primaries.getD i nullHandle)
                s.renderPassBeginInfo.renderPass (s.framebuffers.getD i nullHandle)
                .eSecondaryCommandBuffers,
             .cmdExecuteCommands (primaries.getD i nullHandle)
                (s.drawCmdBuffers.getD i nullHandle),
             .cmdEndRenderPass (primaries.getD i nullHandle),
             .cmdEnd (primaries.getD i nullHandle)]) := by
  refine ⟨_, rfl, ?_, ?_⟩
  · rcases hprim with h | h
    · simp [h]
    · by_cases h0 : s.primaryCmdBuffers = []
      · simp [h0]
      · simp [h0, h]
  by_cases hN : s.swapChain.imageCount = 0
  · have hd : s.drawCmdBuffers = [] := by
      rw [hN] at hdraw
      exact List.length_eq_zero.mp hdraw
    have hfail : buildCommandBuffers hook s =
        .fail (.runtimeError "Draw command buffers have not been populated.") s := by
      simp [buildCommandBuffers, hd]
    refine ⟨?_, ?_, ?_⟩
    · intro t hc
      rw [hfail] at hc
      injection hc with h1 _
      cases h1
    · intro h
      omega
    · rw [hfail]
      simp [hN, Outcome.state, newEvents]
  · have hpos : 0 < s.swapChain.imageCount := Nat.pos_of_ne_zero hN
    obtain ⟨s', hok, hp, hev, -⟩ := buildCommandBuffers_ok hook s hdraw hfb hprim hpos
    refine ⟨?_, ?_, ?_⟩
    · intro t hc
      rw [hok] at hc
      cases hc
    · intro _
      exact ⟨s', hok, hp⟩
    · rw [hok]
      simp only [Outcome.state, hN, if_false]
      rw [hev]
      by_cases h0 : s.primaryCmdBuffers = []
      · simp only [h0, if_true]
        rfl
      · simp only [h0, if_false]
        rfl

/-- C11, instance: rebuilding the primaries 21, 22, 23 of `sampleState`; primary 22 (index 1)
gets framebuffer 42 and executes draw buffer 32. -/
theorem C11_primary_recording_sequence_witness :
    (∀ t, buildCommandBuffers (fun _ => []) sampleState ≠ .fail .outOfRange t) ∧
    (∃ s', buildCommandBuffers (fun _ => []) sampleState = .ok s' ∧
      s'.primaryCmdBuffers = [21, 22, 23]) ∧
    (newEvents sampleState (buildCommandBuffers (fun _ => []) sampleState).state).drop 9 =
      [.cmdReset 22 eReleaseResources, .cmdBegin 22 eSimultaneousUse none,
       .updatePrimaryCommandBuffer 22 [],
       .cmdBeginRenderPass 22 9 42 .eSecondaryCommandBuffers,
       .cmdExecuteCommands 22 32, .cmdEndRenderPass 22, .cmdEnd 22,
       .cmdReset 23 eReleaseResources, .cmdBegin 23 eSimultaneousUse none,
       .updatePrimaryCommandBuffer 23 [],
       .cmdBeginRenderPass 23 9 43 .eSecondaryCommandBuffers,
       .cmdExecuteCommands 23 33, .cmdEndRenderPass 23, .cmdEnd 23] :=
  let ⟨_, hP, _, hno, hok, hev⟩ :=
    C11_primary_recording_sequence (fun _ => []) sampleState rfl rfl (Or.inr rfl)
  let ⟨s', h1, h2⟩ := hok (by decide)
  ⟨hno, ⟨s', h1, h2.trans hP⟩, by rw [hev, hP]; rfl⟩

/-- C12.  Whatever the previous value of `primaryCmdBuffersDirty`: a call of
`updateDrawCommandBuffers` that returns normally leaves it `true`; a call of
`buildCommandBuffers` that returns normally leaves it `false`; and the default member
initialiser makes it `true` in the initial state. -/
theorem C12_dirty_flag_records_last_rebuild (hook : Handle → List Nat)
    (f : Nat → Handle → List Nat) (s s' : ExampleBase) :
    (updateDrawCommandBuffers f s = .ok s' → s'.primaryCmdBuffersDirty = true) ∧
    (buildCommandBuffers hook s = .ok s' → s'.primaryCmdBuffersDirty = false) ∧
    (∀ (context : Context) (swapChain : SwapChain) (cmdPool : Handle),
      (ExampleBase.initial context swapChain cmdPool).primaryCmdBuffersDirty = true) := by
  refine ⟨?_, ?_, fun _ _ _ => rfl⟩
  · intro h
    simp only [updateDrawCommandBuffers] at h
    split at h
    · injection h with h1
      rw [← h1]
    · cases h
  · intro h
    simp only [buildCommandBuffers] at h
    split at h
    · cases h
    · cases hl : buildCommandBuffersLoop hook
          (List.range (buildCommandBuffersSetup s).swapChain.imageCount)
          (buildCommandBuffersSetup s) with
      | ok u =>
        rw [hl] at h
        simp only [Outcome.andThen] at h
        injection h with h1
        rw [← h1]
      | fail e u =>
        rw [hl] at h
        cases h

/-- C12, instance: on `sampleState` (flag `true`) `buildCommandBuffers` returns with the flag
`false`; on the same state with the flag `false`, `updateDrawCommandBuffers` returns with the
flag `true`. -/
theorem C12_dirty_flag_records_last_rebuild_witness :
    (∃ s', buildCommandBuffers (fun _ => []) sampleState = .ok s' ∧
      sampleState.primaryCmdBuffersDirty = true ∧ s'.primaryCmdBuffersDirty = false) ∧
    (∃ s', updateDrawCommandBuffers (fun _ _ => [])
        { sampleState with primaryCmdBuffersDirty := false } = .ok s' ∧
      s'.primaryCmdBuffersDirty = true) :=
  ⟨⟨_, rfl, rfl,
      (C12_dirty_flag_records_last_rebuild (fun _ => []) (fun _ _ => []) sampleState _).2.1
        rfl⟩,
   ⟨_, rfl,
      (C12_dirty_flag_records_last_rebuild (fun _ => []) (fun _ _ => [])
        { sampleState with primaryCmdBuffersDirty := false } _).1 rfl⟩⟩

/-- C13.  When `executePendingTransfers` runs with a non-empty queue (and the non-null argument
its assertion demands, or any argument under `NDEBUG`), it makes exactly one submission: of the
command buffer `cb` allocated in this call, waiting on exactly the argument `tp`, signaling
exactly the semaphore `tc` created in this call and stored in `semaphores.transferComplete`,
against the fence created in this call.  It appends exactly one recycler entry, gated on that
same fence, whose cleanup destroys `tp` and frees `cb` and does nothing else; the disposal
queue is not touched. -/
theorem C13_transfer_submission_and_recycler_entry (ndebug : Bool) (s : ExampleBase)
    (tp : Handle) (hne : s.pendingUpdates ≠ [])
    (hpre : ndebug = true ∨ tp ≠ nullHandle) :
    ∃ s' fence tc cb,
      executePendingTransfers ndebug s tp = .ok s' ∧
      (newEvents s s').filter Event.isCreation =
        [.createFence fence, .createSemaphore tc,
         .allocateCommandBuffers s.cmdPool .ePrimary 1 [cb]] ∧
      s'.semaphores.transferComplete = tc ∧
      submissions (newEvents s s') =
        [({ waitSemaphores := [tp], waitDstStageMask := [eAllCommands],
            signalSemaphores := [tc], commandBuffers := [some cb] }, fence)] ∧
      s'.context.recycler = s.context.recycler ++
        [(fence, [.destroySemaphore tp, .freeCommandBuffers s.cmdPool [cb]])] ∧
      s'.context.dumpster = s.context.dumpster := by
  have hev : newEvents s
      { s with
        pendingUpdates := []
        semaphores := { s.semaphores with transferComplete := s.context.device.nextHandle + 2 }
        context := { s.context with
          device :=
            { nextHandle := s.context.device.nextHandle + 3
              trace := s.context.device.trace ++
                flushTrace s.cmdPool s.context.device.nextHandle tp s.pendingUpdates }
          recycler := s.context.recycler ++
            [(s.context.device.nextHandle + 1,
              [.destroySemaphore tp,
               .freeCommandBuffers s.cmdPool [s.context.device.nextHandle + 3]])] } }
      = flushTrace s.cmdPool s.context.device.nextHandle tp s.pendingUpdates := by
    simp [newEvents, ExampleBase.trace]
  refine ⟨_, s.context.device.nextHandle + 1, s.context.device.nextHandle + 2,
    s.context.device.nextHandle + 3, executePendingTransfers_flush ndebug s tp hne hpre,
    ?_, rfl, ?_, rfl, rfl⟩
  · rw [hev, filter_isCreation_flushTrace]
  · rw [hev, submissions_flushTrace]

/-- C13, instance: flushing the two updates of `sampleState` with transfer-pending
semaphore 7. -/
theorem C13_transfer_submission_and_recycler_entry_witness :
    ∃ s', executePendingTransfers false sampleState 7 = .ok s' ∧
      s'.semaphores.transferComplete = 102 ∧
      submissions (newEvents sampleState s') =
        [({ waitSemaphores := [7], waitDstStageMask := [eAllCommands],
            signalSemaphores := [102], commandBuffers := [some 103] }, 101)] ∧
      s'.context.recycler = [(101, [.destroySemaphore 7, .freeCommandBuffers 6 [103]])] :=
  let ⟨s', _, _, _, h1, _, h3, h4, h5, _⟩ :=
    C13_transfer_submission_and_recycler_entry false sampleState 7 (by decide)
      (Or.inr (by decide))
  have e : executePendingTransfers false sampleState 7 = .ok _ := rfl
  have hs : s' = _ := Outcome.ok.inj (h1.symm.trans e)
  ⟨s', h1, by rw [hs]; rfl, by rw [hs]; rfl, by rw [hs]; rfl⟩

/-- C14.  Take any sequence of `drawCurrentCommandBuffer` calls, with updates enqueued in
between, started in a state whose semaphores were handed out by the device and are pairwise
different (`HandlesConsistent`; the initial state is one).  Then over the whole run no
transfer-complete semaphore is waited on by two draw submissions, no semaphore is destroyed
twice, and the semaphores destroyed or still owed for destruction stay pairwise different.
And in every single call, from any state `t`: the draw submission waits on the stored
`semaphores.transferComplete` exactly when it is non-null, once; that same call hands exactly
one `destroySemaphore` for it to the recycler through the disposal queue; the member is null
from then until the flush, so the flush never overwrites a live handle; and on return the
member is null, or, when a flush took place, the semaphore that flush created. -/
theorem C14_transfer_complete_lifecycle (ndebug : Bool) (frames : List FrameInput)
    (s : ExampleBase) (hc : HandlesConsistent s) :
    (runTransferWaits ndebug frames s).Nodup ∧
    (destroyedSemaphores (runFrames ndebug frames s).context.device.trace).Nodup ∧
    HandlesConsistent (runFrames ndebug frames s) ∧
    (∀ (context : Context) (swapChain : SwapChain) (cmdPool : Handle),
      context.device.trace = [] → context.dumpster = [] → context.recycler = [] →
      HandlesConsistent (ExampleBase.initial context swapChain cmdPool)) ∧
    ∀ (t : ExampleBase) (signaled : Handle → Bool) (semaphore : Handle),
      ∃ t' info later,
        drawCurrentCommandBuffer ndebug signaled t semaphore = .ok t' ∧
        submissions (newEvents t t') = (info, t.swapChain.getSubmitFence) :: later ∧
        info.waitSemaphores.drop 1 =
          (if t.semaphores.transferComplete = nullHandle then []
           else [t.semaphores.transferComplete]) ∧
        (drawCurrentCommandBufferSubmit t semaphore).1.context.recycler =
          t.context.recycler ++
            [(t.swapChain.getSubmitFence,
              t.context.dumpster ++ [.clearSubmitFence t.currentBuffer] ++
                (if t.semaphores.transferComplete = nullHandle then []
                 else [.destroySemaphore t.semaphores.transferComplete]))] ∧
        (drawCurrentCommandBufferSubmit t semaphore).1.semaphores.transferComplete
          = nullHandle ∧
        t'.semaphores.transferComplete =
          (if t.pendingUpdates = [] then nullHandle else t.context.device.nextHandle + 3) ∧
        (t.pendingUpdates ≠ [] →
          Event.createSemaphore (t.context.device.nextHandle + 3) ∈ newEvents t t' ∧
          (submissions (newEvents t t')).map (fun p => p.1.signalSemaphores) =
            [info.signalSemaphores, [t.context.device.nextHandle + 3]]) := by
  have hfinal := handlesConsistent_runFrames ndebug frames s hc
  refine ⟨runTransferWaits_nodup ndebug frames s hc, ?_, hfinal, ?_, ?_⟩
  · have h := hfinal.1
    simp only [semaphoresToDestroy, List.append_assoc] at h
    exact (List.nodup_append.mp h).1
  · intro context swapChain cmdPool h1 h2 h3
    constructor
    · simp [semaphoresToDestroy, ExampleBase.initial, h1, h2, h3, destroyedSemaphores,
        semaphoresOfEntries, semaphoresOfActions]
    · simp [semaphoresToDestroy, ExampleBase.initial, h1, h2, h3, destroyedSemaphores,
        semaphoresOfEntries, semaphoresOfActions]
  · intro t signaled semaphore
    obtain ⟨t', hok, hev, -, hsem, -⟩ := drawCurrentCommandBuffer_ok ndebug signaled t semaphore
    have hsub := submissions_frame t t' semaphore signaled hev
    refine ⟨t', drawSubmitInfo t semaphore,
      (if t.pendingUpdates = [] then []
        else [(transferSubmitInfo t, t.context.device.nextHandle + 2)]),
      hok, hsub, ?_, ?_, ?_, ?_, ?_⟩
    · by_cases htc : t.semaphores.transferComplete = nullHandle <;>
        simp [drawSubmitInfo, htc]
    · rw [drawCurrentCommandBufferSubmit_eq]
    · rw [drawCurrentCommandBufferSubmit_eq]
    · rw [hsem]
    · intro hp
      constructor
      · rw [hev]
        simp [hp, flushTrace, add_assoc]
      · rw [hsub]
        simp [frameSubmissions, hp, transferSubmitInfo]

/-- C14, instance: three frames from `sampleState`.  The first flush creates transfer-complete
semaphore 103, which the second frame's draw waits on; the second flush creates 107, which
the third frame's draw waits on; the semaphores destroyed over the run are all different. -/
theorem C14_transfer_complete_lifecycle_witness :
    HandlesConsistent sampleState ∧
    runTransferWaits false sampleFrames sampleState = [103, 107] ∧
    (runTransferWaits false sampleFrames sampleState).Nodup ∧
    destroyedSemaphores (runFrames false sampleFrames sampleState).context.device.trace =
      [101, 103, 105, 107] ∧
    (destroyedSemaphores
      (runFrames false sampleFrames sampleState).context.device.trace).Nodup :=
  ⟨⟨by decide, by decide⟩, by decide,
   (C14_transfer_complete_lifecycle false sampleFrames sampleState
      ⟨by decide, by decide⟩).1,
   by decide,
   (C14_transfer_complete_lifecycle false sampleFrames sampleState
      ⟨by decide, by decide⟩).2.1⟩

/-- C15 (as amended).  Within every call of `drawCurrentCommandBuffer` the recycler is polled
(`context.recycle`) exactly once, and that poll is the last step of the call: it comes after
the draw submission and after the transfer submission when there is one; no poll precedes a
submission of the call.  What the call does before the draw submission is
`context.emptyDumpster(fence)`, which hands the disposal queue to the recycler gated on the
submit fence. -/
theorem C15_poll_follows_the_submissions (ndebug : Bool) (signaled : Handle → Bool)
    (s : ExampleBase) (semaphore : Handle) :
    ∃ s' before after info later,
      drawCurrentCommandBuffer ndebug signaled s semaphore = .ok s' ∧
      newEvents s s' = before ++ .recycle :: after ∧
      Event.recycle ∉ before ∧
      Event.recycle ∉ after ∧
      submissions before = (info, s.swapChain.getSubmitFence) :: later ∧
      submissions after = [] ∧
      before.take 2 = [.getSubmitFence s.swapChain.getSubmitFence,
                       .emptyDumpster s.swapChain.getSubmitFence] ∧
      pollPrecedesFirstSubmit (newEvents s s') = false := by
  obtain ⟨s', hok, hev, -⟩ := drawCurrentCommandBuffer_ok ndebug signaled s semaphore
  refine ⟨s', _, _, drawSubmitInfo s semaphore,
    submissions (if s.pendingUpdates = [] then []
      else flushTrace s.cmdPool (s.context.device.nextHandle + 1)
             (s.context.device.nextHandle + 1) s.pendingUpdates),
    hok, hev, ?_, ?_, ?_, ?_, ?_, ?_⟩
  · intro hmem
    have := frameEvents_before_poll s semaphore _ hmem
    simp [Event.isCleanup] at this
  · exact recycle_not_mem_pollTrace signaled _
  · rw [submissions_append, submissions_drawTrace]
    rfl
  · exact submissions_pollTrace signaled _
  · simp [drawTrace]
  · rw [hev]
    by_cases hp : s.pendingUpdates = [] <;> simp [drawTrace, hp, pollPrecedesFirstSubmit]

/-- C15, counterexample to the claim as written: in the frame drawn from `sampleState` the
calls are the fence query, `emptyDumpster`, the creation of the transfer-pending semaphore
and then the draw submission; the only `recycle` call is the thirteenth, after both
submissions. -/
theorem C15_first_submission_precedes_poll :
    ∃ s', drawCurrentCommandBuffer false (fun _ => true) sampleState nullHandle = .ok s' ∧
      (newEvents sampleState s').take 4 =
        [.getSubmitFence 12, .emptyDumpster 12, .createSemaphore 101,
         .queueSubmit { waitSemaphores := [51], waitDstStageMask := [eBottomOfPipe],
                        signalSemaphores := [52, 101], commandBuffers := [some 22] } 12] ∧
      (newEvents sampleState s').indexOf .recycle = 12 ∧
      pollPrecedesFirstSubmit (newEvents sampleState s') = false :=
  ⟨_, rfl, rfl, by decide, rfl⟩

/-- C16.  One poll of the recycler (`context.recycle`) with fence status `signaled`: for every
entry in order it queries the fence; the calls of the entry's cleanup closure follow iff the
fence reports signaled, and the entries left in the recycler are exactly those whose fence is
unsignaled, in their original order.  So a closure runs only in a poll in which its gating
fence reports signaled, and an entry whose fence is unsignaled is neither invoked nor
removed. -/
theorem C16_poll_invokes_only_signaled_entries (signaled : Handle → Bool) (s : ExampleBase) :
    newEvents s (s.recycle signaled) =
      .recycle :: s.context.recycler.flatMap (fun en =>
        .getFenceStatus en.1 (signaled en.1) ::
          (if signaled en.1 then en.2.map DisposalAction.event else [])) ∧
    (s.recycle signaled).context.recycler =
      s.context.recycler.filter (fun en => !signaled en.1) ∧
    (∀ en ∈ s.context.recycler, signaled en.1 = false →
      en ∈ (s.recycle signaled).context.recycler) ∧
    (∀ en ∈ (s.recycle signaled).context.recycler,
      en ∈ s.context.recycler ∧ signaled en.1 = false) ∧
    ((∀ en ∈ s.context.recycler, signaled en.1 = false) →
      (s.recycle signaled).context.recycler = s.context.recycler ∧
      (s.recycle signaled).swapChain = s.swapChain ∧
      ∀ e ∈ newEvents s (s.recycle signaled),
        e = .recycle ∨ ∃ fence, e = .getFenceStatus fence false) := by
  have hev : newEvents s (s.recycle signaled) =
      .recycle :: pollTrace signaled s.context.recycler := by
    rw [recycle_eq]
    simp [newEvents, ExampleBase.trace]
  refine ⟨?_, ?_, ?_, ?_, ?_⟩
  · rw [hev, pollTrace_eq_flatMap]
  · rw [recycle_eq]
  · intro en hen hs
    rw [recycle_eq]
    simp [List.mem_filter, hen, hs]
  · intro en hen
    rw [recycle_eq] at hen
    simpa [List.mem_filter] using hen
  · intro hall
    have hfilter : s.context.recycler.filter (fun en => !signaled en.1) = s.context.recycler := by
      rw [List.filter_eq_self]
      intro en hen
      simp [hall en hen]
    have hsc : ∀ (entries : List (Handle × List DisposalAction)) (sc : SwapChain),
        (∀ en ∈ entries, signaled en.1 = false) → pollSwapChain signaled entries sc = sc := by
      intro entries
      induction entries with
      | nil => intro sc _; rfl
      | cons en entries ih =>
        intro sc h
        obtain ⟨fence, body⟩ := en
        have h1 : signaled fence = false := h (fence, body) (List.mem_cons_self _ _)
        simp only [pollSwapChain, h1, Bool.false_eq_true, if_false]
        exact ih sc (fun en hen => h en (List.mem_cons_of_mem _ hen))
    refine ⟨?_, ?_, ?_⟩
    · rw [recycle_eq]
      exact hfilter
    · rw [recycle_eq]
      exact hsc _ _ hall
    · intro e he
      rw [hev, pollTrace_eq_flatMap] at he
      rcases List.mem_cons.mp he with h | h
      · exact Or.inl h
      · rw [List.mem_flatMap] at h
        obtain ⟨en, hen, hmem⟩ := h
        have h1 := hall en hen
        simp only [h1, Bool.false_eq_true, if_false, List.mem_singleton] at hmem
        exact Or.inr ⟨en.1, hmem⟩

/-- C16, instance: a recycler holding an entry on fence 12 and one on fence 102, polled while
only fence 102 is signaled: the closure of the second entry runs, the first entry stays. -/
theorem C16_poll_invokes_only_signaled_entries_witness :
    newEvents
      { sampleState with context := { sampleState.context with
          recycler := [(12, [.clearSubmitFence 1]),
                       (102, [.destroySemaphore 101, .freeCommandBuffers 6 [104]])] } }
      (ExampleBase.recycle (fun fence => fence == 102)
        { sampleState with context := { sampleState.context with
            recycler := [(12, [.clearSubmitFence 1]),
                         (102, [.destroySemaphore 101, .freeCommandBuffers 6 [104]])] } }) =
      [.recycle, .getFenceStatus 12 false, .getFenceStatus 102 true,
       .destroySemaphore 101, .freeCommandBuffers 6 [104]] ∧
    (ExampleBase.recycle (fun fence => fence == 102)
        { sampleState with context := { sampleState.context with
            recycler := [(12, [.clearSubmitFence 1]),
                         (102, [.destroySemaphore 101, .freeCommandBuffers 6 [104]])] } }
      ).context.recycler = [(12, [.clearSubmitFence 1])] :=
  ⟨(C16_poll_invokes_only_signaled_entries (fun fence => fence == 102)
      { sampleState with context := { sampleState.context with
          recycler := [(12, [.clearSubmitFence 1]),
                       (102, [.destroySemaphore 101, .freeCommandBuffers 6 [104]])] } }).1,
   (C16_poll_invokes_only_signaled_entries (fun fence => fence == 102)
      { sampleState with context := { sampleState.context with
          recycler := [(12, [.clearSubmitFence 1]),
                       (102, [.destroySemaphore 101, .freeCommandBuffers 6 [104]])] } }).2.1⟩

/-- C18.  For every state with `N = swapChain.imageCount` framebuffers,
`populateSubCommandBuffers` returns normally; the `i`-th invocation of the recording callback
sees `currentBuffer = i`; on return `currentBuffer` is 0 whatever it was before; and apart from
`currentBuffer`, the vector passed by reference, the disposal queue and the device (handle
supply and call trace) every member is as it was.  Hence the next `drawCurrentCommandBuffer`
submits `primaryCmdBuffers[0]` and defers the clearing of submit fence 0, whichever image was
current before the rebuild. -/
theorem C18_populate_resets_current_buffer (s : ExampleBase) (cmdBuffers : List Handle)
    (f : Nat → Handle → List Nat) (hfb : s.framebuffers.length = s.swapChain.imageCount) :
    ∃ s' newBuffers,
      populateSubCommandBuffers s cmdBuffers f = (newBuffers, .ok s') ∧
      invocations (newEvents s s') =
        (List.range s.swapChain.imageCount).map
          (fun i => (i, s.context.device.nextHandle + 1 + i)) ∧
      s'.currentBuffer = 0 ∧
      s' = { s with
             currentBuffer := 0
             context := { s.context with
               dumpster := s'.context.dumpster
               device := s'.context.device } } ∧
      ∀ (ndebug : Bool) (signaled : Handle → Bool) (semaphore : Handle),
        ∃ s'' info later,
          drawCurrentCommandBuffer ndebug signaled s' semaphore = .ok s'' ∧
          submissions (newEvents s' s'') = (info, s.swapChain.getSubmitFence) :: later ∧
          info.commandBuffers = [s.primaryCmdBuffers[0]?] ∧
          (drawCurrentCommandBufferSubmit s' semaphore).1.context.recycler =
            s.context.recycler ++
              [(s.swapChain.getSubmitFence,
                s'.context.dumpster ++ [.clearSubmitFence 0] ++
                  (if s.semaphores.transferComplete = nullHandle then []
                   else [.destroySemaphore s.semaphores.transferComplete]))] := by
  have hpop := populateSubCommandBuffers_eq s cmdBuffers f hfb
  obtain ⟨s', hpop', -, hev, hcur⟩ := populateSubCommandBuffers_ok s cmdBuffers f hfb
  have hs : s' = _ := Outcome.ok.inj (congrArg Prod.snd (hpop'.symm.trans hpop))
  refine ⟨s', _, hpop', ?_, hcur, ?_, ?_⟩
  · rw [hev, invocations_append]
    have h0 : invocations
        (if cmdBuffers = [] then [] else [Event.trashCommandBuffers cmdBuffers]) = [] := by
      by_cases hc : cmdBuffers = [] <;> simp [hc, invocations]
    rw [h0, List.nil_append]
    simp only [invocations]
    exact invocations_flatMap_recording _ _ _ _ _ _ (fun _ => rfl) (fun _ => rfl)
      (fun _ => rfl)
  · rw [hs]
  · intro ndebug signaled semaphore
    obtain ⟨s'', hok, hev2, -⟩ := drawCurrentCommandBuffer_ok ndebug signaled s' semaphore
    refine ⟨s'', drawSubmitInfo s' semaphore,
      (if s'.pendingUpdates = [] then []
        else [(transferSubmitInfo s', s'.context.device.nextHandle + 2)]),
      hok, ?_, ?_, ?_⟩
    · rw [submissions_frame s' s'' semaphore signaled hev2, hs]
      rfl
    · rw [hs]
      rfl
    · rw [drawCurrentCommandBufferSubmit_eq, hs]

/-- C18, instance: `sampleState` has image 1 current; after rebuilding its draw buffers the
next frame submits primary 21 (index 0), not 22, and defers `clearSubmitFence 0`. -/
theorem C18_populate_resets_current_buffer_witness :
    sampleState.currentBuffer = 1 ∧
    ∃ s' newBuffers,
      populateSubCommandBuffers sampleState [31, 32, 33] (fun _ _ => []) =
        (newBuffers, .ok s') ∧
      invocations (newEvents sampleState s') = [(0, 101), (1, 102), (2, 103)] ∧
      s'.currentBuffer = 0 ∧
      ∃ s'' info later,
        drawCurrentCommandBuffer false (fun _ => false) s' nullHandle = .ok s'' ∧
        submissions (newEvents s' s'') = (info, 12) :: later ∧
        info.commandBuffers = [some 21] ∧
        (drawCurrentCommandBufferSubmit s' nullHandle).1.context.recycler =
          [(12, s'.context.dumpster ++ [.clearSubmitFence 0])] :=
  ⟨rfl,
   let ⟨s', nb, h1, h2, h3, _, h5⟩ :=
     C18_populate_resets_current_buffer sampleState [31, 32, 33] (fun _ _ => []) rfl
   let ⟨s'', info, later, k1, k2, k3, k4⟩ := h5 false (fun _ => false) nullHandle
   ⟨s', nb, h1, h2, h3, s'', info, later, k1, k2, k3,
    by rw [k4]; simp [sampleState, SwapChain.getSubmitFence, nullHandle]⟩⟩

end vkx
